import Mathlib

/-!
Verification of the RecipeEnrichment core (cache, orchestrator, models)
against its natural-language specification.

Python strings are modelled as lists of Unicode scalar characters
(`Str := List Char`); Python dicts as association lists in insertion
order with unique keys maintained by `dictSet`; JSON documents as the
inductive `Json`.  The MD5 digest and `json.loads` are Python-stdlib
primitives, so they enter the model as function parameters (`md5`,
`loads`); every other operation is translated from the source.
-/

/-- Python strings as lists of Unicode scalar values. -/
abbrev Str := List Char

/-- Convenience: the character list of a Lean string literal. -/
def lit (s : String) : Str := s.data

/-- JSON documents as produced by json.loads / consumed by json.dump.
Objects keep key order; numbers are modelled as integers (the pipeline
only ever stores integer-valued numeric fields). -/
inductive Json where
  | null
  | bool (b : Bool)
  | num (n : Int)
  | str (s : Str)
  | arr (elems : List Json)
  | obj (fields : List (Str × Json))

/-- Python dict payloads: association lists, first occurrence wins. -/
abbrev Payload := List (Str × Json)

/-- Python dict lookup d.get(k) / d[k]. -/
def dictGet (d : Payload) (k : Str) : Option Json :=
  match d with
  | [] => none
  | (k', v) :: rest => if k' = k then some v else dictGet rest k

/-- Python membership test: k in d. -/
def dictHas (d : Payload) (k : Str) : Bool :=
  (dictGet d k).isSome

/-- Python dict assignment d[k] = v: update in place if present, else append. -/
def dictSet (d : Payload) (k : Str) (v : Json) : Payload :=
  match d with
  | [] => [(k, v)]
  | (k', v') :: rest => if k' = k then (k', v) :: rest else (k', v') :: dictSet rest k v

/-- Python truthiness of a JSON value (None, False, 0, "", [], and the
empty dict are falsy; everything else truthy). -/
def pyTruthy : Json → Bool
  | .null => false
  | .bool b => b
  | .num n => n != 0
  | .str s => !s.isEmpty
  | .arr xs => !xs.isEmpty
  | .obj kvs => !kvs.isEmpty

/-- The validated enrichment record (core/models.py, class RecipeEnrichment). -/
structure EnrichmentRecord where
  title : Str
  generated_summary : Str
  ingredients : List Str
  instructions : List Str
  healthiness_score : Str
  ease_of_cooking_score : Str
  indian_ingredient_availability_score : Str
  prep_time_minutes : Int
  prep_time_breakdown : Payload
  prep_notes : Option Str
  total_cooking_time_minutes : Int
  cooking_time_breakdown : Payload
  soaking_required : Bool
  soaking_time_minutes : Option Int
  protein_level : Str
  meal_type_suitability : List Str
  dietary_restrictions : List Str
  categories : Payload
  original_categories : List Str
  meal_prep_guidance : Option Payload
  recipe_url : Option Str
  image_url : Option Str
  video_url : Option Str
  additional_images : Option (List Str)

/-- The scraped recipe (core/models.py, class Recipe), after pydantic
construction has run (so the derive-from-text validator has already fired). -/
structure Recipe where
  title : Str
  summary : Option Str := none
  text : Option Str := none
  ingredients : List Str := []
  instructions : List Str := []
  keywords : Option (List Str) := none
  tags : Option (List Str) := none
  categories : Option (List Str) := none
  enrichment : Option EnrichmentRecord := none
  url : Option Str := none
  top_image : Option Str := none
  meta_img : Option Str := none
  images : Option (List Str) := none
  movies : Option (List Str) := none

/-- Modelled from the spec: the provider/model enum (ModelType) is not in
the source snapshot (config/settings.py lacks it); only its .value string
identifier reaches the cache key, so it is modelled as that string. -/
structure ModelType where
  value : Str
deriving DecidableEq, Repr

/-! ## Cache key generation (core/cache.py, _generate_cache_key)

The content hash is md5 over the UTF-8 encoding of
json.dumps(dict with the four content fields, sort_keys=True).
We embed the exact string json.dumps produces (default ensure_ascii=True,
default separators) and leave the digest itself as a parameter md5. -/

/-- Lowercase hex digit, as used by Python's backslash-u escapes. -/
def hexDigitChar (n : Nat) : Char :=
  if n < 10 then Char.ofNat (48 + n) else Char.ofNat (87 + n)

/-- Four lowercase hex digits of n (n < 65536). -/
def hex4 (n : Nat) : Str :=
  [hexDigitChar (n / 4096 % 16), hexDigitChar (n / 256 % 16),
   hexDigitChar (n / 16 % 16), hexDigitChar (n % 16)]

/-- One backslash-u escape. -/
def uEsc (n : Nat) : Str := '\\' :: 'u' :: hex4 n

/-- Escaping of one character by json.dumps with ensure_ascii=True:
backslash, quote and the five short control escapes; printable ASCII
verbatim; everything else as backslash-u hex, astral characters as a
UTF-16 surrogate pair. -/
def escChar (c : Char) : Str :=
  if c = '\\' then ['\\', '\\']
  else if c = '"' then ['\\', '"']
  else if c = Char.ofNat 8 then ['\\', 'b']
  else if c = Char.ofNat 9 then ['\\', 't']
  else if c = Char.ofNat 10 then ['\\', 'n']
  else if c = Char.ofNat 12 then ['\\', 'f']
  else if c = Char.ofNat 13 then ['\\', 'r']
  else if 32 ≤ c.toNat ∧ c.toNat ≤ 126 then [c]
  else if c.toNat < 65536 then uEsc c.toNat
  else uEsc (55296 + (c.toNat - 65536) / 1024) ++ uEsc (56320 + (c.toNat - 65536) % 1024)

/-- Escaped body of a JSON string literal. -/
def escStr : Str → Str
  | [] => []
  | c :: cs => escChar c ++ escStr cs

/-- A JSON string literal with its quotes. -/
def jsonStr (s : Str) : Str := '"' :: escStr s ++ ['"']

/-- Tail of a JSON array of strings after the first element: either the
closing bracket or ", " and the next element. -/
def jsonListTail : List Str → Str
  | [] => [']']
  | x :: xs => ',' :: ' ' :: jsonStr x ++ jsonListTail xs

/-- JSON array of strings with default separators (", "). -/
def jsonStrList : List Str → Str
  | [] => lit "[]"
  | x :: xs => '[' :: jsonStr x ++ jsonListTail xs

/-- An optional string field: null or a string literal. -/
def jsonOptStr : Option Str → Str
  | none => lit "null"
  | some s => jsonStr s

/-- The exact json.dumps output for the content dict of the cache key,
with sort_keys=True ordering the keys ingredients, instructions, text,
title. -/
def contentOf (title : Str) (ingredients instructions : List Str) (text : Option Str) : Str :=
  lit "\x7b\"ingredients\": " ++ jsonStrList ingredients
    ++ lit ", \"instructions\": " ++ jsonStrList instructions
    ++ lit ", \"text\": " ++ jsonOptStr text
    ++ lit ", \"title\": " ++ jsonStr title ++ lit "\x7d"

/-- Content string of a recipe: only the four content-bearing fields enter. -/
def recipeContent (r : Recipe) : Str :=
  contentOf r.title r.ingredients r.instructions r.text

/-- One sanitization step: the nine filesystem-unsafe characters each map
to an underscore.  Each str.replace in the source replaces a single
character by a single character and no replacement output is itself a
replaced character, so the chain of replaces is this character map. -/
def sanChar (c : Char) : Char :=
  if c = ' ' ∨ c = '/' ∨ c = '\\' ∨ c = ':' ∨ c = '*' ∨ c = '?' ∨
     c = '"' ∨ c = '<' ∨ c = '>' ∨ c = '|' then '_' else c

/-- Filesystem-friendly sanitization of the whole key. -/
def sanitize (s : Str) : Str := s.map sanChar

/-- cache.py _generate_cache_key: title, content digest and model value
joined by underscores, then sanitized. -/
def generate_cache_key (md5 : Str → Str) (r : Recipe) (mt : ModelType) : Str :=
  sanitize (r.title ++ '_' :: md5 (recipeContent r) ++ '_' :: mt.value)

/-! ## A parser inverting the content serialization

To prove that the cache-key content string determines the four content
fields (the heart of the fingerprint-determinism property), we write a
parser for the exact format emitted above and prove the round trip. -/

/-- Numeric value of a lowercase hex digit character. -/
def hexVal (c : Char) : Option Nat :=
  if 48 ≤ c.toNat ∧ c.toNat ≤ 57 then some (c.toNat - 48)
  else if 97 ≤ c.toNat ∧ c.toNat ≤ 102 then some (c.toNat - 87)
  else none

/-- Decode four hex digit characters. -/
def decodeHex4 (a b c d : Char) : Option Nat :=
  match hexVal a, hexVal b, hexVal c, hexVal d with
  | some x, some y, some z, some w => some (4096 * x + 256 * y + 16 * z + w)
  | _, _, _, _ => none

/-- Prepend a decoded character to a parse result. -/
def consTok (c : Char) : Option (Str × Str) → Option (Str × Str)
  | some (s, r) => some (c :: s, r)
  | none => none

/-- Decode one escape sequence (the input starts just after a backslash);
returns the decoded character and the remaining input. -/
def unesc : Str → Option (Char × Str)
  | [] => none
  | e :: rest1 =>
    if e = '"' then some ('"', rest1)
    else if e = '\\' then some ('\\', rest1)
    else if e = 'b' then some (Char.ofNat 8, rest1)
    else if e = 't' then some (Char.ofNat 9, rest1)
    else if e = 'n' then some (Char.ofNat 10, rest1)
    else if e = 'f' then some (Char.ofNat 12, rest1)
    else if e = 'r' then some (Char.ofNat 13, rest1)
    else if e = 'u' then
      match rest1 with
      | a :: b :: c2 :: d :: rest2 =>
        match decodeHex4 a b c2 d with
        | none => none
        | some n =>
          if 55296 ≤ n ∧ n ≤ 56319 then
            match rest2 with
            | b2 :: u2 :: a3 :: b3 :: c3 :: d3 :: rest3 =>
              if b2 = '\\' ∧ u2 = 'u' then
                match decodeHex4 a3 b3 c3 d3 with
                | some m =>
                  if 56320 ≤ m ∧ m ≤ 57343 then
                    some (Char.ofNat (65536 + (n - 55296) * 1024 + (m - 56320)), rest3)
                  else none
                | none => none
              else none
            | _ => none
          else some (Char.ofNat n, rest2)
      | _ => none
    else none

/-- Fuel-indexed body of the string-literal parser; the fuel only bounds
the number of decoded characters and is immaterial once large enough. -/
def parseJStrF : Nat → Str → Option (Str × Str)
  | 0, _ => none
  | _ + 1, [] => none
  | fuel + 1, c :: rest =>
    if c = '"' then some ([], rest)
    else if c = '\\' then
      match unesc rest with
      | some (ch, rest2) => consTok ch (parseJStrF fuel rest2)
      | none => none
    else consTok c (parseJStrF fuel rest)

/-- Parse the body of a JSON string literal (input starts right after the
opening quote); returns the decoded content and the rest of the input
after the closing quote. -/
def parseJStr (s : Str) : Option (Str × Str) := parseJStrF s.length s

/-- Decoding a digit emitted by the encoder recovers its value. -/
theorem hexVal_hexDigitChar (k : Nat) (h : k < 16) :
    hexVal (hexDigitChar k) = some k := by
  interval_cases k <;> decide

/-- Decoding the four digits emitted for n recovers n. -/
theorem decodeHex4_hex4 (n : Nat) (h : n < 65536) :
    decodeHex4 (hexDigitChar (n / 4096 % 16)) (hexDigitChar (n / 256 % 16))
      (hexDigitChar (n / 16 % 16)) (hexDigitChar (n % 16)) = some n := by
  rw [decodeHex4, hexVal_hexDigitChar _ (by omega), hexVal_hexDigitChar _ (by omega),
    hexVal_hexDigitChar _ (by omega), hexVal_hexDigitChar _ (by omega)]
  exact congrArg some (by omega)

theorem parseJStrF_quote (fuel : Nat) (t : Str) :
    parseJStrF (fuel + 1) ('"' :: t) = some ([], t) := by
  rw [parseJStrF]
  simp only [Char.reduceEq, reduceIte]

theorem parseJStrF_esc (fuel : Nat) (t : Str) :
    parseJStrF (fuel + 1) ('\\' :: t) =
      (match unesc t with
       | some (ch, rest2) => consTok ch (parseJStrF fuel rest2)
       | none => none) := by
  rw [parseJStrF]
  simp only [Char.reduceEq, reduceIte]

theorem parseJStrF_plain (fuel : Nat) (c : Char) (hq : c ≠ '"') (hb : c ≠ '\\') (t : Str) :
    parseJStrF (fuel + 1) (c :: t) = consTok c (parseJStrF fuel t) := by
  rw [parseJStrF]
  simp only [if_neg hq, if_neg hb]

theorem unesc_quote (t : Str) : unesc ('"' :: t) = some ('"', t) := by
  rw [unesc.eq_def]
  simp only [Char.reduceEq, reduceIte]

theorem unesc_backslash (t : Str) : unesc ('\\' :: t) = some ('\\', t) := by
  rw [unesc.eq_def]
  simp only [Char.reduceEq, reduceIte]

theorem unesc_b (t : Str) : unesc ('b' :: t) = some (Char.ofNat 8, t) := by
  rw [unesc.eq_def]
  simp only [Char.reduceEq, reduceIte]

theorem unesc_t (t : Str) : unesc ('t' :: t) = some (Char.ofNat 9, t) := by
  rw [unesc.eq_def]
  simp only [Char.reduceEq, reduceIte]

theorem unesc_n (t : Str) : unesc ('n' :: t) = some (Char.ofNat 10, t) := by
  rw [unesc.eq_def]
  simp only [Char.reduceEq, reduceIte]

theorem unesc_f (t : Str) : unesc ('f' :: t) = some (Char.ofNat 12, t) := by
  rw [unesc.eq_def]
  simp only [Char.reduceEq, reduceIte]

theorem unesc_r (t : Str) : unesc ('r' :: t) = some (Char.ofNat 13, t) := by
  rw [unesc.eq_def]
  simp only [Char.reduceEq, reduceIte]

theorem unesc_u_gen (a b c2 d : Char) (t : Str) (n : Nat)
    (hn : decodeHex4 a b c2 d = some n) (hns : ¬(55296 ≤ n ∧ n ≤ 56319)) :
    unesc ('u' :: a :: b :: c2 :: d :: t) = some (Char.ofNat n, t) := by
  rw [unesc.eq_def]
  simp only [Char.reduceEq, reduceIte, hn, if_neg hns]

theorem unesc_u_pair_gen (a b c2 d a3 b3 c3 d3 : Char) (t : Str) (n m : Nat)
    (hn : decodeHex4 a b c2 d = some n) (hsr : 55296 ≤ n ∧ n ≤ 56319)
    (hm : decodeHex4 a3 b3 c3 d3 = some m) (hlr : 56320 ≤ m ∧ m ≤ 57343) :
    unesc ('u' :: a :: b :: c2 :: d :: '\\' :: 'u' :: a3 :: b3 :: c3 :: d3 :: t)
      = some (Char.ofNat (65536 + (n - 55296) * 1024 + (m - 56320)), t) := by
  rw [unesc.eq_def]
  simp only [Char.reduceEq, reduceIte, hn, hm, if_pos hsr, if_pos hlr, and_self]

theorem unesc_u (n : Nat) (hlt : n < 65536) (hns : ¬(55296 ≤ n ∧ n ≤ 56319)) (t : Str) :
    unesc ('u' :: (hex4 n ++ t)) = some (Char.ofNat n, t) := by
  rw [hex4]
  simp only [List.cons_append, List.nil_append]
  exact unesc_u_gen _ _ _ _ _ _ (decodeHex4_hex4 n hlt) hns

theorem unesc_u_pair (n : Nat) (h1 : 65536 ≤ n) (h2 : n < 1114112) (t : Str) :
    unesc ('u' :: (hex4 (55296 + (n - 65536) / 1024) ++
        ('\\' :: 'u' :: (hex4 (56320 + (n - 65536) % 1024) ++ t)))) =
      some (Char.ofNat n, t) := by
  have hhi : 55296 + (n - 65536) / 1024 < 65536 := by omega
  have hlo : 56320 + (n - 65536) % 1024 < 65536 := by omega
  have harg : 65536 + (55296 + (n - 65536) / 1024 - 55296) * 1024 +
      (56320 + (n - 65536) % 1024 - 56320) = n := by
    omega
  rw [hex4, hex4]
  simp only [List.cons_append, List.nil_append]
  rw [unesc_u_pair_gen _ _ _ _ _ _ _ _ _ _ _ (decodeHex4_hex4 _ hhi) (by omega)
    (decodeHex4_hex4 _ hlo) (by omega), harg]

/-- The escape branch of the parser, given a successful escape decode. -/
theorem parseJStrF_esc2 (fuel : Nat) (t : Str) (ch : Char) (t2 : Str)
    (h : unesc t = some (ch, t2)) :
    parseJStrF (fuel + 1) ('\\' :: t) = consTok ch (parseJStrF fuel t2) := by
  rw [parseJStrF]
  simp only [Char.reduceEq, reduceIte, h]

/-- Every character escapes to at least one character. -/
theorem length_escChar_pos (c : Char) : 1 ≤ (escChar c).length := by
  rw [escChar]
  split_ifs <;> simp [uEsc, hex4]

/-- The escaped string is at least as long as the original. -/
theorem length_escStr (s : Str) : s.length ≤ (escStr s).length := by
  induction s with
  | nil => simp [escStr]
  | cons c cs ih =>
    rw [escStr]
    simp only [List.length_append, List.length_cons]
    have := length_escChar_pos c
    omega

/-- Validity bounds of a Lean character, in Nat form. -/
theorem char_toNat_valid (c : Char) :
    c.toNat < 55296 ∨ (57343 < c.toNat ∧ c.toNat < 1114112) :=
  c.valid

/-- Fuel-indexed round trip: the string-literal parser inverts the escaper. -/
theorem parseJStrF_escStr (s : Str) : ∀ (fuel : Nat) (rest : Str), s.length < fuel →
    parseJStrF fuel (escStr s ++ '"' :: rest) = some (s, rest) := by
  induction s with
  | nil =>
    intro fuel rest hf
    obtain ⟨f, rfl⟩ : ∃ f, fuel = f + 1 := ⟨fuel - 1, by omega⟩
    rw [escStr, List.nil_append, parseJStrF_quote]
  | cons c cs ih =>
    intro fuel rest hf
    obtain ⟨f, rfl⟩ : ∃ f, fuel = f + 1 := ⟨fuel - 1, by omega⟩
    have hcs : cs.length < f := by
      simp only [List.length_cons] at hf
      omega
    rw [escStr, List.append_assoc]
    by_cases h1 : c = '\\'
    · subst h1
      rw [show escChar '\\' = ['\\', '\\'] from by decide]
      simp only [List.cons_append, List.nil_append]
      rw [parseJStrF_esc2 f _ _ _ (unesc_backslash _), ih f rest hcs]
      rfl
    by_cases h2 : c = '"'
    · subst h2
      rw [show escChar '"' = ['\\', '"'] from by decide]
      simp only [List.cons_append, List.nil_append]
      rw [parseJStrF_esc2 f _ _ _ (unesc_quote _), ih f rest hcs]
      rfl
    by_cases h3 : c = Char.ofNat 8
    · subst h3
      rw [show escChar (Char.ofNat 8) = ['\\', 'b'] from by decide]
      simp only [List.cons_append, List.nil_append]
      rw [parseJStrF_esc2 f _ _ _ (unesc_b _), ih f rest hcs]
      rfl
    by_cases h4 : c = Char.ofNat 9
    · subst h4
      rw [show escChar (Char.ofNat 9) = ['\\', 't'] from by decide]
      simp only [List.cons_append, List.nil_append]
      rw [parseJStrF_esc2 f _ _ _ (unesc_t _), ih f rest hcs]
      rfl
    by_cases h5 : c = Char.ofNat 10
    · subst h5
      rw [show escChar (Char.ofNat 10) = ['\\', 'n'] from by decide]
      simp only [List.cons_append, List.nil_append]
      rw [parseJStrF_esc2 f _ _ _ (unesc_n _), ih f rest hcs]
      rfl
    by_cases h6 : c = Char.ofNat 12
    · subst h6
      rw [show escChar (Char.ofNat 12) = ['\\', 'f'] from by decide]
      simp only [List.cons_append, List.nil_append]
      rw [parseJStrF_esc2 f _ _ _ (unesc_f _), ih f rest hcs]
      rfl
    by_cases h7 : c = Char.ofNat 13
    · subst h7
      rw [show escChar (Char.ofNat 13) = ['\\', 'r'] from by decide]
      simp only [List.cons_append, List.nil_append]
      rw [parseJStrF_esc2 f _ _ _ (unesc_r _), ih f rest hcs]
      rfl
    by_cases h8 : 32 ≤ c.toNat ∧ c.toNat ≤ 126
    · have he : escChar c = [c] := by
        rw [escChar, if_neg h1, if_neg h2, if_neg h3, if_neg h4, if_neg h5, if_neg h6,
          if_neg h7, if_pos h8]
      rw [he]
      simp only [List.cons_append, List.nil_append]
      rw [parseJStrF_plain f c h2 h1, ih f rest hcs]
      rfl
    by_cases h9 : c.toNat < 65536
    · have he : escChar c = uEsc c.toNat := by
        rw [escChar, if_neg h1, if_neg h2, if_neg h3, if_neg h4, if_neg h5, if_neg h6,
          if_neg h7, if_neg h8, if_pos h9]
      have hns : ¬(55296 ≤ c.toNat ∧ c.toNat ≤ 56319) := by
        rcases char_toNat_valid c with hv | hv <;> omega
      rw [he, uEsc]
      simp only [List.cons_append]
      rw [parseJStrF_esc2 f _ _ _ (unesc_u c.toNat h9 hns _), ih f rest hcs,
        Char.ofNat_toNat]
      rfl
    · have hv2 : c.toNat < 1114112 := by
        rcases char_toNat_valid c with hv | hv <;> omega
      have he : escChar c = uEsc (55296 + (c.toNat - 65536) / 1024) ++
          uEsc (56320 + (c.toNat - 65536) % 1024) := by
        rw [escChar, if_neg h1, if_neg h2, if_neg h3, if_neg h4, if_neg h5, if_neg h6,
          if_neg h7, if_neg h8, if_neg h9]
      rw [he, List.append_assoc, uEsc, uEsc]
      simp only [List.cons_append]
      rw [parseJStrF_esc2 f _ _ _ (unesc_u_pair c.toNat (by omega) hv2 _), ih f rest hcs,
        Char.ofNat_toNat]
      rfl

/-- Round trip for the packaged parser. -/
theorem parseJStr_escStr (s rest : Str) :
    parseJStr (escStr s ++ '"' :: rest) = some (s, rest) := by
  rw [parseJStr]
  apply parseJStrF_escStr
  have h1 := length_escStr s
  simp only [List.length_append, List.length_cons]
  omega

/-- Parse a fixed literal prefix, returning the remaining input. -/
def parseLit : Str → Str → Option Str
  | [], input => some input
  | _ :: _, [] => none
  | l :: ls, c :: cs => if c = l then parseLit ls cs else none

theorem parseLit_append (l rest : Str) : parseLit l (l ++ rest) = some rest := by
  induction l with
  | nil => rfl
  | cons c cs ih =>
    simp only [List.cons_append, parseLit, if_pos rfl]
    exact ih

/-- Parse the items of a JSON string array, positioned at the start of an
item (an opening quote); fuel bounds the number of items. -/
def parseItems : Nat → Str → Option (List Str × Str)
  | 0, _ => none
  | _ + 1, [] => none
  | fuel + 1, c :: rest =>
    if c = '"' then
      match parseJStr rest with
      | some (s, r2) =>
        match r2 with
        | [] => none
        | c2 :: r3 =>
          if c2 = ']' then some ([s], r3)
          else if c2 = ',' then
            match r3 with
            | [] => none
            | c3 :: r4 =>
              if c3 = ' ' then
                match parseItems fuel r4 with
                | some (ss, r5) => some (s :: ss, r5)
                | none => none
              else none
          else none
      | none => none
    else none

/-- Parse a JSON array of string literals. -/
def parseStrList : Str → Option (List Str × Str)
  | [] => none
  | c :: rest =>
    if c = '[' then
      match rest with
      | [] => none
      | c2 :: rest2 =>
        if c2 = ']' then some ([], rest2)
        else parseItems (c2 :: rest2).length (c2 :: rest2)
    else none

/-- Parse an optional string field: the literal null or a string literal. -/
def parseOptStr : Str → Option (Option Str × Str)
  | [] => none
  | c :: rest =>
    if c = 'n' then
      match rest with
      | u :: l1 :: l2 :: r =>
        if u = 'u' ∧ l1 = 'l' ∧ l2 = 'l' then some (none, r) else none
      | _ => none
    else if c = '"' then
      match parseJStr rest with
      | some (s, r) => some (some s, r)
      | none => none
    else none

theorem parseItems_round : ∀ (xs : List Str) (x : Str) (fuel : Nat) (rest : Str),
    xs.length < fuel →
    parseItems fuel (jsonStr x ++ (jsonListTail xs ++ rest)) = some (x :: xs, rest) := by
  intro xs
  induction xs with
  | nil =>
    intro x fuel rest hf
    obtain ⟨f, rfl⟩ : ∃ f, fuel = f + 1 := ⟨fuel - 1, by omega⟩
    rw [jsonStr, jsonListTail]
    simp only [List.cons_append, List.append_assoc, List.nil_append]
    rw [parseItems.eq_def]
    simp only [Char.reduceEq, reduceIte, parseJStr_escStr]
  | cons y ys ih =>
    intro x fuel rest hf
    obtain ⟨f, rfl⟩ : ∃ f, fuel = f + 1 := ⟨fuel - 1, by omega⟩
    have hys : ys.length < f := by
      simp only [List.length_cons] at hf
      omega
    rw [jsonStr, jsonListTail]
    simp only [List.cons_append, List.append_assoc, List.nil_append]
    rw [parseItems.eq_def]
    simp only [Char.reduceEq, reduceIte, parseJStr_escStr, ih y f rest hys]

theorem length_jsonStr_ge (x : Str) : 2 ≤ (jsonStr x).length := by
  simp [jsonStr]

theorem length_jsonListTail_ge (xs : List Str) :
    1 + xs.length ≤ (jsonListTail xs).length := by
  induction xs with
  | nil => simp [jsonListTail]
  | cons y ys ih =>
    rw [jsonListTail]
    simp only [List.length_cons, List.length_append]
    have := length_jsonStr_ge y
    omega

theorem parseStrList_round (xs : List Str) (rest : Str) :
    parseStrList (jsonStrList xs ++ rest) = some (xs, rest) := by
  cases xs with
  | nil =>
    rw [jsonStrList]
    rw [show lit "[]" ++ rest = '[' :: ']' :: rest from rfl]
    rw [parseStrList.eq_def]
    simp only [Char.reduceEq, reduceIte]
  | cons x xs =>
    rw [jsonStrList]
    have hq : jsonStr x ++ jsonListTail xs ++ rest =
        '"' :: (escStr x ++ '"' :: [] ++ (jsonListTail xs ++ rest)) := by
      rw [jsonStr]
      simp only [List.cons_append, List.append_assoc]
    simp only [List.cons_append, hq]
    rw [parseStrList.eq_def]
    simp only [Char.reduceEq, reduceIte]
    have hlen : xs.length < ('"' :: (escStr x ++ '"' :: [] ++ (jsonListTail xs ++ rest))).length := by
      simp only [List.length_cons, List.length_append]
      have := length_jsonListTail_ge xs
      omega
    have := parseItems_round xs x
        ('"' :: (escStr x ++ '"' :: [] ++ (jsonListTail xs ++ rest))).length rest hlen
    rw [jsonStr] at this
    simp only [List.cons_append, List.append_assoc] at this ⊢
    exact this

theorem parseOptStr_round (t : Option Str) (rest : Str) :
    parseOptStr (jsonOptStr t ++ rest) = some (t, rest) := by
  cases t with
  | none =>
    rw [jsonOptStr]
    rw [show lit "null" ++ rest = 'n' :: 'u' :: 'l' :: 'l' :: rest from rfl]
    rw [parseOptStr.eq_def]
    simp only [Char.reduceEq, reduceIte, and_self]
  | some s =>
    rw [jsonOptStr, jsonStr]
    simp only [List.cons_append, List.append_assoc, List.nil_append]
    rw [parseOptStr.eq_def]
    simp only [Char.reduceEq, reduceIte, parseJStr_escStr]

/-- Parse the full cache-key content string, recovering the four fields. -/
def parseContent (s : Str) : Option ((Option Str × List Str × List Str × Option Str) × Str) :=
  match parseLit (lit "\x7b\"ingredients\": ") s with
  | none => none
  | some r1 =>
    match parseStrList r1 with
    | none => none
    | some (ings, r2) =>
      match parseLit (lit ", \"instructions\": ") r2 with
      | none => none
      | some r3 =>
        match parseStrList r3 with
        | none => none
        | some (insts, r4) =>
          match parseLit (lit ", \"text\": ") r4 with
          | none => none
          | some r5 =>
            match parseOptStr r5 with
            | none => none
            | some (txt, r6) =>
              match parseLit (lit ", \"title\": ") r6 with
              | none => none
              | some r7 =>
                match parseOptStr r7 with
                | none => none
                | some (ttl, r8) =>
                  match parseLit (lit "\x7d") r8 with
                  | none => none
                  | some r9 => some ((ttl, ings, insts, txt), r9)

/-- Round trip: parsing the serialized content recovers all four fields. -/
theorem parseContent_contentOf (title : Str) (ings insts : List Str) (txt : Option Str)
    (rest : Str) :
    parseContent (contentOf title ings insts txt ++ rest)
      = some ((some title, ings, insts, txt), rest) := by
  rw [contentOf]
  rw [show jsonStr title = jsonOptStr (some title) from rfl]
  simp only [List.append_assoc, parseContent, parseLit_append, parseStrList_round,
    parseOptStr_round]

/-- The serialized content string determines the four content fields. -/
theorem contentOf_inj (t1 t2 : Str) (i1 i2 n1 n2 : List Str) (x1 x2 : Option Str)
    (h : contentOf t1 i1 n1 x1 = contentOf t2 i2 n2 x2) :
    t1 = t2 ∧ i1 = i2 ∧ n1 = n2 ∧ x1 = x2 := by
  have h1 := parseContent_contentOf t1 i1 n1 x1 []
  have h2 := parseContent_contentOf t2 i2 n2 x2 []
  rw [h] at h1
  rw [h1] at h2
  injection h2 with h3
  injection h3 with h4 h5
  injection h4 with h6 h7
  injection h6
  injection h7 with h8 h9
  injection h9 with h10 h11
  simp_all

/-! ## C1: cache key determinism -/

/-- Exactly one of the four content fields differs, the other three equal. -/
def differsInExactlyOneField (r1 r2 : Recipe) : Prop :=
  (r1.title ≠ r2.title ∧ r1.ingredients = r2.ingredients ∧
    r1.instructions = r2.instructions ∧ r1.text = r2.text) ∨
  (r1.title = r2.title ∧ r1.ingredients ≠ r2.ingredients ∧
    r1.instructions = r2.instructions ∧ r1.text = r2.text) ∨
  (r1.title = r2.title ∧ r1.ingredients = r2.ingredients ∧
    r1.instructions ≠ r2.instructions ∧ r1.text = r2.text) ∨
  (r1.title = r2.title ∧ r1.ingredients = r2.ingredients ∧
    r1.instructions = r2.instructions ∧ r1.text ≠ r2.text)

/-- If any content field differs, the serialized content differs. -/
theorem recipeContent_ne (r1 r2 : Recipe) (h : differsInExactlyOneField r1 r2) :
    recipeContent r1 ≠ recipeContent r2 := by
  intro he
  rw [recipeContent, recipeContent] at he
  have hinj := contentOf_inj _ _ _ _ _ _ _ _ he
  rcases h with ⟨h1, _, _, _⟩ | ⟨_, h2, _, _⟩ | ⟨_, _, h3, _⟩ | ⟨_, _, _, h4⟩ <;> tauto

/-- The cache key depends only on the four content fields and the model. -/
theorem generate_cache_key_eq (md5 : Str → Str) (r1 r2 : Recipe) (m : ModelType)
    (ht : r1.title = r2.title) (hi : r1.ingredients = r2.ingredients)
    (hn : r1.instructions = r2.instructions) (hx : r1.text = r2.text) :
    generate_cache_key md5 r1 m = generate_cache_key md5 r2 m := by
  rw [generate_cache_key, generate_cache_key, recipeContent, recipeContent, ht, hi, hn, hx]

/-- If the digests of the two content strings differ (and are hex-like:
equal length, fixed under sanitization, as real md5 hexdigests are), the
sanitized keys differ. -/
theorem generate_cache_key_ne (md5 : Str → Str) (r1 r2 : Recipe) (m : ModelType)
    (hlen : (md5 (recipeContent r1)).length = (md5 (recipeContent r2)).length)
    (hf1 : sanitize (md5 (recipeContent r1)) = md5 (recipeContent r1))
    (hf2 : sanitize (md5 (recipeContent r2)) = md5 (recipeContent r2))
    (hne : md5 (recipeContent r1) ≠ md5 (recipeContent r2)) :
    generate_cache_key md5 r1 m ≠ generate_cache_key md5 r2 m := by
  intro hk
  apply hne
  have hmap1 : List.map sanChar (md5 (recipeContent r1)) = md5 (recipeContent r1) := hf1
  have hmap2 : List.map sanChar (md5 (recipeContent r2)) = md5 (recipeContent r2) := hf2
  simp only [generate_cache_key, sanitize, List.map_append, List.map_cons, hmap1, hmap2,
    show sanChar '_' = '_' from by decide, List.cons_append, List.append_assoc] at hk
  have hlenA : (List.map sanChar r1.title).length = (List.map sanChar r2.title).length := by
    have hl := congrArg List.length hk
    simp only [List.length_append, List.length_cons] at hl
    simp only [List.length_map] at hl ⊢
    omega
  have h2 := (List.append_inj hk hlenA).2
  injection h2 with _ h4
  exact (List.append_inj h4 hlen).1

/-- C1: for recipes agreeing on title, ingredients, instructions and text
and the same model identifier, the generated cache key is identical
regardless of any other field; and when exactly one of those four fields
changes, the digest input changes, so (the md5 digests being equal-length
sanitization-fixed hex strings, and not colliding on these two inputs)
the generated key changes. -/
theorem C1_cache_key_determinism (md5 : Str → Str) (r1 r2 : Recipe) (m : ModelType) :
    ((r1.title = r2.title ∧ r1.ingredients = r2.ingredients ∧
      r1.instructions = r2.instructions ∧ r1.text = r2.text) →
      generate_cache_key md5 r1 m = generate_cache_key md5 r2 m)
    ∧ (differsInExactlyOneField r1 r2 →
        recipeContent r1 ≠ recipeContent r2 ∧
        ((md5 (recipeContent r1)).length = (md5 (recipeContent r2)).length →
          sanitize (md5 (recipeContent r1)) = md5 (recipeContent r1) →
          sanitize (md5 (recipeContent r2)) = md5 (recipeContent r2) →
          md5 (recipeContent r1) ≠ md5 (recipeContent r2) →
          generate_cache_key md5 r1 m ≠ generate_cache_key md5 r2 m)) := by
  constructor
  · rintro ⟨ht, hi, hn, hx⟩
    exact generate_cache_key_eq md5 r1 r2 m ht hi hn hx
  · intro hd
    refine ⟨recipeContent_ne r1 r2 hd, ?_⟩
    intro hlen hf1 hf2 hne
    exact generate_cache_key_ne md5 r1 r2 m hlen hf1 hf2 hne

/-- Concrete recipe for exercising the cache-key theorems. -/
def c1r1 : Recipe :=
  { title := lit "Dal", ingredients := [lit "x"], instructions := [lit "y"],
    text := some (lit "t") }

/-- Same four content fields as c1r1, but a different unrelated field. -/
def c1r1other : Recipe := { c1r1 with url := some (lit "u") }

/-- Same as c1r1 except for the ingredients list. -/
def c1r2 : Recipe := { c1r1 with ingredients := [lit "z"] }

/-- A concrete digest standing in for md5 on the two contents of interest:
distinct, equal-length, sanitization-fixed outputs. -/
def c1md5 : Str → Str := fun s => if s = recipeContent c1r1 then lit "aaaa" else lit "bbbb"

/-- Concrete model identifier. -/
def c1m : ModelType := ⟨lit "gpt-4"⟩

theorem C1_cache_key_determinism_witness :
    generate_cache_key c1md5 c1r1 c1m = generate_cache_key c1md5 c1r1other c1m ∧
    generate_cache_key c1md5 c1r1 c1m ≠ generate_cache_key c1md5 c1r2 c1m :=
  ⟨(C1_cache_key_determinism c1md5 c1r1 c1r1other c1m).1 (by decide),
   ((C1_cache_key_determinism c1md5 c1r1 c1r2 c1m).2
      (by unfold differsInExactlyOneField; decide)).2
     (by decide) (by decide) (by decide) (by decide)⟩

/-! ## Content cache (core/cache.py, RecipeCache) -/

/-- Python exceptions distinguished by the model. -/
inductive PyExc where
  | valueErr
  | jsonErr
  | validationErr
  | typeErr
  | attrErr
  | adapterErr
  | ioErr
  | retryErr (last : PyExc)
deriving DecidableEq, Repr

/-- A stored cache file body: either JSON that json.load decodes, or
undecodable/unreadable content. -/
inductive FileData where
  | good (j : Json)
  | bad

/-- The cache directory: file name to file contents. -/
abbrev CacheFS := List (Str × FileData)

def fsLookup (fs : CacheFS) (name : Str) : Option FileData :=
  match fs with
  | [] => none
  | (n, d) :: rest => if n = name then some d else fsLookup rest name

def fsWrite (fs : CacheFS) (name : Str) (d : FileData) : CacheFS :=
  match fs with
  | [] => [(name, d)]
  | (n, d') :: rest => if n = name then (n, d) :: rest else (n, d') :: fsWrite rest name d

/-- The cache file backing one key. -/
def cacheFileName (md5 : Str → Str) (r : Recipe) (mt : ModelType) : Str :=
  generate_cache_key md5 r mt ++ lit ".json"

/-- Body of RecipeCache.get inside its try block: compute the key, check
file existence, decode on hit, None on miss; decoding a corrupt file
raises. -/
def cacheGetChecked (md5 : Str → Str) (fs : CacheFS) (r : Recipe) (mt : ModelType) :
    Except PyExc (Option Json) :=
  match fsLookup fs (cacheFileName md5 r mt) with
  | none => Except.ok none
  | some (FileData.good j) => Except.ok (some j)
  | some FileData.bad => Except.error PyExc.jsonErr

/-- RecipeCache.get with its except handler: any exception from the body
is swallowed (logged) and None is returned. -/
def cacheGetCaught (md5 : Str → Str) (fs : CacheFS) (r : Recipe) (mt : ModelType) :
    Except PyExc (Option Json) :=
  match cacheGetChecked md5 fs r mt with
  | Except.ok v => Except.ok v
  | Except.error _ => Except.ok none

/-- The value RecipeCache.get returns. -/
def cacheGet (md5 : Str → Str) (fs : CacheFS) (r : Recipe) (mt : ModelType) : Option Json :=
  match cacheGetChecked md5 fs r mt with
  | Except.ok v => v
  | Except.error _ => none

/-- RecipeCache.set: persist the payload under the key; the host
filesystem write is modelled as succeeding, so set returns True. -/
def cacheSet (md5 : Str → Str) (fs : CacheFS) (r : Recipe) (mt : ModelType)
    (payload : Json) : CacheFS × Bool :=
  (fsWrite fs (cacheFileName md5 r mt) (FileData.good payload), true)

theorem fsLookup_fsWrite (fs : CacheFS) (name : Str) (d : FileData) :
    fsLookup (fsWrite fs name d) name = some d := by
  induction fs with
  | nil => simp [fsWrite, fsLookup]
  | cons hd tl ih =>
    obtain ⟨n, d'⟩ := hd
    by_cases h : n = name <;> simp [fsWrite, fsLookup, h, ih]

/-- C6: a successful set followed by get on the same recipe, model and
cache directory returns a payload equal to the stored payload. -/
theorem C6_cache_round_trip (md5 : Str → Str) (fs : CacheFS) (r : Recipe) (mt : ModelType)
    (payload : Json) (_hs : (cacheSet md5 fs r mt payload).2 = true) :
    cacheGet md5 (cacheSet md5 fs r mt payload).1 r mt = some payload := by
  rw [cacheGet, cacheGetChecked, cacheSet, fsLookup_fsWrite]

theorem C6_cache_round_trip_witness :
    cacheGet c1md5 (cacheSet c1md5 [] c1r1 c1m (Json.obj [])).1 c1r1 c1m
      = some (Json.obj []) :=
  C6_cache_round_trip c1md5 [] c1r1 c1m (Json.obj []) rfl

/-- C7: get never raises: the caught computation always yields ok of the
returned value; a missing backing file and an undecodable file both
produce the absent value None. -/
theorem C7_cache_get_total (md5 : Str → Str) (fs : CacheFS) (r : Recipe) (mt : ModelType) :
    cacheGetCaught md5 fs r mt = Except.ok (cacheGet md5 fs r mt)
    ∧ (fsLookup fs (cacheFileName md5 r mt) = none → cacheGet md5 fs r mt = none)
    ∧ (fsLookup fs (cacheFileName md5 r mt) = some FileData.bad →
        cacheGet md5 fs r mt = none) := by
  refine ⟨?_, ?_, ?_⟩
  · rw [cacheGetCaught, cacheGet]
    cases h : cacheGetChecked md5 fs r mt <;> rfl
  · intro h
    rw [cacheGet, cacheGetChecked, h]
  · intro h
    rw [cacheGet, cacheGetChecked, h]

/-- A cache directory holding one undecodable file under the c1 key. -/
def c7fs : CacheFS := [(cacheFileName c1md5 c1r1 c1m, FileData.bad)]

theorem C7_cache_get_total_witness :
    cacheGetCaught c1md5 c7fs c1r1 c1m = Except.ok (cacheGet c1md5 c7fs c1r1 c1m)
    ∧ cacheGet c1md5 [] c1r1 c1m = none
    ∧ cacheGet c1md5 c7fs c1r1 c1m = none :=
  ⟨(C7_cache_get_total c1md5 c7fs c1r1 c1m).1,
   (C7_cache_get_total c1md5 [] c1r1 c1m).2.1 rfl,
   (C7_cache_get_total c1md5 c7fs c1r1 c1m).2.2 (by rw [fsLookup.eq_def]; exact if_pos rfl)⟩

/-! ## EnrichmentRecord validation (core/models.py, RecipeEnrichment)

Pydantic validation is modelled as: the record is accepted iff every
field check passes, in which case each record field carries its
extracted value.  The three 5-point scores and the protein level are
anchored regex alternations, i.e. exact membership in their fixed
vocabulary. -/

def healthinessVocab : List Str :=
  [lit "Very Healthy", lit "Healthy", lit "Moderate", lit "Unhealthy", lit "Very Unhealthy"]

def easeVocab : List Str :=
  [lit "Very Easy", lit "Easy", lit "Moderate", lit "Difficult", lit "Very Difficult"]

def availabilityVocab : List Str :=
  [lit "Very High", lit "High", lit "Moderate", lit "Low", lit "Very Low"]

def proteinVocab : List Str := [lit "High", lit "Medium", lit "Low"]

/-- Required str field. -/
def reqStr (d : Payload) (k : Str) : Except Unit Str :=
  match dictGet d k with
  | some (Json.str s) => Except.ok s
  | _ => Except.error ()

/-- Required str field constrained by an anchored alternation pattern. -/
def reqStrPattern (d : Payload) (k : Str) (vocab : List Str) : Except Unit Str :=
  match dictGet d k with
  | some (Json.str s) => if s ∈ vocab then Except.ok s else Except.error ()
  | _ => Except.error ()

/-- Required non-negative int field (ge=0). -/
def reqNonnegInt (d : Payload) (k : Str) : Except Unit Int :=
  match dictGet d k with
  | some (Json.num n) => if 0 ≤ n then Except.ok n else Except.error ()
  | _ => Except.error ()

/-- A JSON array whose elements are all strings. -/
def jsonStrElems : List Json → Option (List Str)
  | [] => some []
  | Json.str s :: rest => (jsonStrElems rest).map (fun l => s :: l)
  | _ => none

/-- Required List[str] field. -/
def reqStrList (d : Payload) (k : Str) : Except Unit (List Str) :=
  match dictGet d k with
  | some (Json.arr xs) =>
    match jsonStrElems xs with
    | some l => Except.ok l
    | none => Except.error ()
  | _ => Except.error ()

/-- Required dict field. -/
def reqObj (d : Payload) (k : Str) : Except Unit Payload :=
  match dictGet d k with
  | some (Json.obj o) => Except.ok o
  | _ => Except.error ()

/-- Optional[str] field defaulting to None. -/
def optStrField (d : Payload) (k : Str) : Except Unit (Option Str) :=
  match dictGet d k with
  | none => Except.ok none
  | some Json.null => Except.ok none
  | some (Json.str s) => Except.ok (some s)
  | some _ => Except.error ()

/-- Optional[int] field with ge=0, defaulting to None. -/
def optNonnegIntField (d : Payload) (k : Str) : Except Unit (Option Int) :=
  match dictGet d k with
  | none => Except.ok none
  | some Json.null => Except.ok none
  | some (Json.num n) => if 0 ≤ n then Except.ok (some n) else Except.error ()
  | some _ => Except.error ()

/-- Optional[dict] field defaulting to None. -/
def optObjField (d : Payload) (k : Str) : Except Unit (Option Payload) :=
  match dictGet d k with
  | none => Except.ok none
  | some Json.null => Except.ok none
  | some (Json.obj o) => Except.ok (some o)
  | some _ => Except.error ()

/-- Optional[List[str]] field defaulting to None. -/
def optStrListField (d : Payload) (k : Str) : Except Unit (Option (List Str)) :=
  match dictGet d k with
  | none => Except.ok none
  | some Json.null => Except.ok none
  | some (Json.arr xs) =>
    match jsonStrElems xs with
    | some l => Except.ok (some l)
    | none => Except.error ()
  | some _ => Except.error ()

/-- bool field with a default (soaking_required = False). -/
def boolField (d : Payload) (k : Str) (dflt : Bool) : Except Unit Bool :=
  match dictGet d k with
  | none => Except.ok dflt
  | some (Json.bool b) => Except.ok b
  | some _ => Except.error ()

/-- List[str] field with default [] (original_categories). -/
def strListDefaultField (d : Payload) (k : Str) : Except Unit (List Str) :=
  match dictGet d k with
  | none => Except.ok []
  | some (Json.arr xs) =>
    match jsonStrElems xs with
    | some l => Except.ok l
    | none => Except.error ()
  | some _ => Except.error ()

def exOk {α : Type} : Except Unit α → Bool
  | Except.ok _ => true
  | Except.error _ => false

def exGet {α : Type} (dflt : α) : Except Unit α → α
  | Except.ok a => a
  | Except.error _ => dflt

/-- All field checks of the RecipeEnrichment schema. -/
def enrichmentOk (d : Payload) : Bool :=
  exOk (reqStr d (lit "title")) &&
  exOk (reqStr d (lit "generated_summary")) &&
  exOk (reqStrList d (lit "ingredients")) &&
  exOk (reqStrList d (lit "instructions")) &&
  exOk (reqStrPattern d (lit "healthiness_score") healthinessVocab) &&
  exOk (reqStrPattern d (lit "ease_of_cooking_score") easeVocab) &&
  exOk (reqStrPattern d (lit "indian_ingredient_availability_score") availabilityVocab) &&
  exOk (reqNonnegInt d (lit "prep_time_minutes")) &&
  exOk (reqObj d (lit "prep_time_breakdown")) &&
  exOk (optStrField d (lit "prep_notes")) &&
  exOk (reqNonnegInt d (lit "total_cooking_time_minutes")) &&
  exOk (reqObj d (lit "cooking_time_breakdown")) &&
  exOk (boolField d (lit "soaking_required") false) &&
  exOk (optNonnegIntField d (lit "soaking_time_minutes")) &&
  exOk (reqStrPattern d (lit "protein_level") proteinVocab) &&
  exOk (reqStrList d (lit "meal_type_suitability")) &&
  exOk (reqStrList d (lit "dietary_restrictions")) &&
  exOk (reqObj d (lit "categories")) &&
  exOk (strListDefaultField d (lit "original_categories")) &&
  exOk (optObjField d (lit "meal_prep_guidance")) &&
  exOk (optStrField d (lit "recipe_url")) &&
  exOk (optStrField d (lit "image_url")) &&
  exOk (optStrField d (lit "video_url")) &&
  exOk (optStrListField d (lit "additional_images"))

/-- The record built from a payload that passed all checks. -/
def buildEnrichment (d : Payload) : EnrichmentRecord :=
  { title := exGet [] (reqStr d (lit "title"))
    generated_summary := exGet [] (reqStr d (lit "generated_summary"))
    ingredients := exGet [] (reqStrList d (lit "ingredients"))
    instructions := exGet [] (reqStrList d (lit "instructions"))
    healthiness_score := exGet [] (reqStrPattern d (lit "healthiness_score") healthinessVocab)
    ease_of_cooking_score := exGet [] (reqStrPattern d (lit "ease_of_cooking_score") easeVocab)
    indian_ingredient_availability_score :=
      exGet [] (reqStrPattern d (lit "indian_ingredient_availability_score") availabilityVocab)
    prep_time_minutes := exGet 0 (reqNonnegInt d (lit "prep_time_minutes"))
    prep_time_breakdown := exGet [] (reqObj d (lit "prep_time_breakdown"))
    prep_notes := exGet none (optStrField d (lit "prep_notes"))
    total_cooking_time_minutes := exGet 0 (reqNonnegInt d (lit "total_cooking_time_minutes"))
    cooking_time_breakdown := exGet [] (reqObj d (lit "cooking_time_breakdown"))
    soaking_required := exGet false (boolField d (lit "soaking_required") false)
    soaking_time_minutes := exGet none (optNonnegIntField d (lit "soaking_time_minutes"))
    protein_level := exGet [] (reqStrPattern d (lit "protein_level") proteinVocab)
    meal_type_suitability := exGet [] (reqStrList d (lit "meal_type_suitability"))
    dietary_restrictions := exGet [] (reqStrList d (lit "dietary_restrictions"))
    categories := exGet [] (reqObj d (lit "categories"))
    original_categories := exGet [] (strListDefaultField d (lit "original_categories"))
    meal_prep_guidance := exGet none (optObjField d (lit "meal_prep_guidance"))
    recipe_url := exGet none (optStrField d (lit "recipe_url"))
    image_url := exGet none (optStrField d (lit "image_url"))
    video_url := exGet none (optStrField d (lit "video_url"))
    additional_images := exGet none (optStrListField d (lit "additional_images")) }

/-- RecipeEnrichment(**d): validation of a payload against the schema. -/
def validateEnrichment (d : Payload) : Except Unit EnrichmentRecord :=
  if enrichmentOk d then Except.ok (buildEnrichment d) else Except.error ()

/-! ## Response repair (core/enricher.py, _enrich_single_recipe body) -/

/-- One pass of Python str.replace(pat, repl) with non-empty pattern
p :: ps, scanning left to right; the fuel starts at the input length and
decreases at least as fast as the input, so it never runs out. -/
def replaceGoF (p : Char) (ps repl : Str) : Nat → Str → Str
  | _, [] => []
  | 0, s => s
  | fuel + 1, c :: rest =>
    if (p :: ps).isPrefixOf (c :: rest) then
      repl ++ replaceGoF p ps repl fuel (List.drop ps.length rest)
    else c :: replaceGoF p ps repl fuel rest

/-- Python str.replace(pat, repl): all non-overlapping occurrences,
left to right.  (The empty-pattern case never arises below.) -/
def replaceAll (pat repl s : Str) : Str :=
  match pat with
  | [] => s
  | p :: ps => replaceGoF p ps repl s.length s

/-- The fixed fraction de-escaping table of _fix_unicode, in source order. -/
def fixUnicodeTable : List (Str × Str) :=
  [(lit "\\u00bd", lit "½"), (lit "\\u00bc", lit "¼"), (lit "\\u00be", lit "¾"),
   (lit "\\u2153", lit "⅓"), (lit "\\u2154", lit "⅔"), (lit "\\u2155", lit "⅕"),
   (lit "\\u2156", lit "⅖"), (lit "\\u2157", lit "⅗"), (lit "\\u2158", lit "⅘"),
   (lit "\\u2159", lit "⅙"), (lit "\\u215a", lit "⅚"), (lit "\\u215b", lit "⅛"),
   (lit "\\u215c", lit "⅜"), (lit "\\u215d", lit "⅝"), (lit "\\u215e", lit "⅞")]

/-- _fix_unicode: sequentially replace each table entry. -/
def fixUnicode (s : Str) : Str :=
  fixUnicodeTable.foldl (fun acc pr => replaceAll pr.1 pr.2 acc) s

def isJsonStr : Json → Bool
  | Json.str _ => true
  | _ => false

def fixElem : Json → Json
  | Json.str s => Json.str (fixUnicode s)
  | v => v

/-- The per-value step of the unicode pass: fix strings, and lists whose
elements are all strings; leave every other value unchanged. -/
def fixValue : Json → Json
  | Json.str s => Json.str (fixUnicode s)
  | Json.arr xs => if xs.all isJsonStr then Json.arr (xs.map fixElem) else Json.arr xs
  | v => v

/-- The unicode pass over all payload entries. -/
def fixUnicodePass (d : Payload) : Payload :=
  d.map (fun kv => (kv.1, fixValue kv.2))

def optStrJson : Option Str → Json
  | none => Json.null
  | some s => Json.str s

/-- Truthiness of an optional string (None and "" falsy). -/
def truthyOpt : Option Str → Bool
  | none => false
  | some s => !s.isEmpty

/-- The first image chosen by the if/elif chain: truthy top_image, else
truthy meta_img, else the first element of a non-empty images list. -/
def imageUrlChoice (r : Recipe) : Option Str :=
  if truthyOpt r.top_image then r.top_image
  else if truthyOpt r.meta_img then r.meta_img
  else
    match r.images with
    | some (i0 :: _) => some i0
    | _ => none

def imageBackfill (r : Recipe) (d : Payload) : Payload :=
  match imageUrlChoice r with
  | some s => dictSet d (lit "image_url") (Json.str s)
  | none => d

def videoBackfill (r : Recipe) (d : Payload) : Payload :=
  match r.movies with
  | some (m0 :: _) => dictSet d (lit "video_url") (Json.str m0)
  | _ => d

/-- enrichment_data.get("image_url") == recipe.images[0] as a boolean
(Python == between a non-string and a string is False). -/
def imageEqFirst (d : Payload) (i0 : Str) : Bool :=
  match dictGet d (lit "image_url") with
  | some (Json.str s) => s == i0
  | _ => false

def additionalImagesBackfill (r : Recipe) (d : Payload) : Payload :=
  match r.images with
  | some (i0 :: irest) =>
    if imageEqFirst d i0 && !irest.isEmpty then
      dictSet d (lit "additional_images") (Json.arr (irest.map Json.str))
    else
      dictSet d (lit "additional_images") (Json.arr ((i0 :: irest).map Json.str))
  | _ => d

def originalCategoriesStep (r : Recipe) (d : Payload) : Payload :=
  match r.categories with
  | some (c0 :: cs) =>
    dictSet d (lit "original_categories") (Json.arr ((c0 :: cs).map Json.str))
  | _ => dictSet d (lit "original_categories") (Json.arr [])

def mealPrepDefault (d : Payload) : Payload :=
  if dictHas d (lit "meal_prep_guidance") then d
  else
    dictSet d (lit "meal_prep_guidance") (Json.obj
      [(lit "components_to_prep", Json.arr []),
       (lit "prep_instructions", Json.obj []),
       (lit "storage_info", Json.obj []),
       (lit "final_assembly", Json.str (lit "Prepare the recipe as instructed.")),
       (lit "time_saving_tips",
        Json.arr [Json.str (lit "No specific meal prep guidance available for this recipe.")])])

/-- The fixed required-field list of the back-fill step, in source order. -/
def requiredFields : List Str :=
  [lit "title", lit "generated_summary", lit "ingredients", lit "instructions",
   lit "healthiness_score", lit "ease_of_cooking_score",
   lit "indian_ingredient_availability_score", lit "prep_time_minutes",
   lit "prep_time_breakdown", lit "total_cooking_time_minutes",
   lit "cooking_time_breakdown", lit "protein_level", lit "meal_type_suitability",
   lit "dietary_restrictions", lit "categories"]

/-- The default substituted for a missing required field; none models a
field name not covered by any branch (the source then leaves it unset,
which cannot happen for members of requiredFields). -/
def defaultFor (r : Recipe) (f : Str) : Option Json :=
  if f = lit "title" ∨ f = lit "generated_summary" then
    some (if f = lit "title" then Json.str r.title
          else Json.str (lit "A recipe for " ++ r.title))
  else if f = lit "ingredients" ∨ f = lit "instructions" ∨
      f = lit "meal_type_suitability" ∨ f = lit "dietary_restrictions" then
    some (if f = lit "ingredients" then Json.arr (r.ingredients.map Json.str)
          else if f = lit "instructions" then Json.arr (r.instructions.map Json.str)
          else Json.arr [])
  else if f = lit "healthiness_score" ∨ f = lit "ease_of_cooking_score" ∨
      f = lit "indian_ingredient_availability_score" ∨ f = lit "protein_level" then
    some (if f ≠ lit "protein_level" then Json.str (lit "Moderate")
          else Json.str (lit "Medium"))
  else if f = lit "prep_time_minutes" ∨ f = lit "total_cooking_time_minutes" ∨
      f = lit "soaking_time_minutes" then
    some (if f ≠ lit "soaking_time_minutes" then Json.num 30 else Json.num 0)
  else if f = lit "prep_time_breakdown" ∨ f = lit "cooking_time_breakdown" ∨
      f = lit "categories" then
    some (Json.obj [(lit "default", Json.str (lit "Not provided"))])
  else none

/-- One assignment of the back-fill loop. -/
def backfillStep (r : Recipe) (acc : Payload) (f : Str) : Payload :=
  match defaultFor r f with
  | some v => dictSet acc f v
  | none => acc

/-- The required-field back-fill: compute the missing fields from the
incoming payload, then assign each its default. -/
def completeRequired (r : Recipe) (d : Payload) : Payload :=
  let missing := requiredFields.filter (fun f => !dictHas d f)
  missing.foldl (backfillStep r) d

/-! ## The orchestrator (core/enricher.py, _enrich_single_recipe) -/

/-- config.MAX_RETRIES (config/settings.py). -/
def MAX_RETRIES : Nat := 3

/-- response_content.startswith of the sentinel error marker. -/
def startsWithSentinel (s : Str) : Bool :=
  (lit "\x7b\"error\":").isPrefixOf s

/-- Result of one attempt of the decorated body: the outcome, the cache
directory afterwards, and how many provider calls and cache writes the
attempt performed. -/
structure AttemptOut where
  outcome : Except PyExc Recipe
  fs : CacheFS
  providerCalls : Nat
  cacheWrites : Nat

/-- The cache-hit path: recipe.enrichment = RecipeEnrichment(**cached_data);
a non-dict cached value makes the ** call raise TypeError, an invalid dict
raises ValidationError. -/
def enrichHit (r : Recipe) (fs : CacheFS) (cached : Json) : AttemptOut :=
  match cached with
  | Json.obj kvs =>
    match validateEnrichment kvs with
    | Except.ok e => ⟨Except.ok { r with enrichment := some e }, fs, 0, 0⟩
    | Except.error _ => ⟨Except.error PyExc.validationErr, fs, 0, 0⟩
  | _ => ⟨Except.error PyExc.typeErr, fs, 0, 0⟩

/-- The fresh-call path: invoke the adapter, check the sentinel, parse,
repair, cache and validate.  loads is json.loads (strict=False); the
adapter result is the provider response for this call, or an exception
escaping the adapter. -/
def enrichProviderPhase (loads : Str → Option Json) (md5 : Str → Str)
    (adapter : Except PyExc Str) (mt : ModelType) (fs : CacheFS) (r : Recipe) : AttemptOut :=
  match adapter with
  | Except.error e => ⟨Except.error e, fs, 1, 0⟩
  | Except.ok text =>
    if startsWithSentinel text then
      match loads text with
      | some _ => ⟨Except.error PyExc.valueErr, fs, 1, 0⟩
      | none => ⟨Except.error PyExc.jsonErr, fs, 1, 0⟩
    else
      match loads text with
      | none => ⟨Except.error PyExc.jsonErr, fs, 1, 0⟩
      | some (Json.obj kvs) =>
        let d1 := fixUnicodePass kvs
        let d2 := dictSet d1 (lit "recipe_url") (optStrJson r.url)
        let d3 := imageBackfill r d2
        let d4 := videoBackfill r d3
        let d5 := additionalImagesBackfill r d4
        let d6 := originalCategoriesStep r d5
        let d7 := mealPrepDefault d6
        let d8 := completeRequired r d7
        let fs2 := (cacheSet md5 fs r mt (Json.obj d8)).1
        match validateEnrichment d8 with
        | Except.ok e => ⟨Except.ok { r with enrichment := some e }, fs2, 1, 1⟩
        | Except.error _ => ⟨Except.error PyExc.validationErr, fs2, 1, 1⟩
      | some _ => ⟨Except.error PyExc.attrErr, fs, 1, 0⟩

/-- One attempt of _enrich_single_recipe: check the cache (Python
truthiness decides hit vs miss), else call the provider. -/
def enrichAttempt (loads : Str → Option Json) (md5 : Str → Str)
    (adapter : Except PyExc Str) (mt : ModelType) (fs : CacheFS) (r : Recipe) : AttemptOut :=
  match cacheGet md5 fs r mt with
  | some cached =>
    if pyTruthy cached then enrichHit r fs cached
    else enrichProviderPhase loads md5 adapter mt fs r
  | none => enrichProviderPhase loads md5 adapter mt fs r

/-- Result of the whole decorated call. -/
structure RunOut where
  outcome : Except PyExc Recipe
  fs : CacheFS
  attempts : Nat
  providerCalls : Nat
  cacheWrites : Nat

/-- The tenacity retry loop (stop_after_attempt, default reraise=False):
run the body; on success return, on failure retry while attempts remain,
and after the last attempt raise RetryError wrapping the last exception.
The adapter is indexed by how many provider calls happened before.  The
fuel-zero case (stop_after_attempt(0)) never arises: MAX_RETRIES = 3. -/
def enrichRunGo (loads : Str → Option Json) (md5 : Str → Str)
    (adapter : Nat → Except PyExc Str) (mt : ModelType) (r : Recipe) :
    Nat → CacheFS → Nat → Nat → Nat → RunOut
  | 0, fs, attempts, calls, writes =>
    ⟨Except.error (PyExc.retryErr PyExc.jsonErr), fs, attempts, calls, writes⟩
  | remaining + 1, fs, attempts, calls, writes =>
    let a := enrichAttempt loads md5 (adapter calls) mt fs r
    match a.outcome with
    | Except.ok r' =>
      ⟨Except.ok r', a.fs, attempts + 1, calls + a.providerCalls, writes + a.cacheWrites⟩
    | Except.error e =>
      if remaining = 0 then
        ⟨Except.error (PyExc.retryErr e), a.fs, attempts + 1,
          calls + a.providerCalls, writes + a.cacheWrites⟩
      else
        enrichRunGo loads md5 adapter mt r remaining a.fs (attempts + 1)
          (calls + a.providerCalls) (writes + a.cacheWrites)

/-- _enrich_single_recipe under its retry decorator. -/
def enrich_single_recipe (loads : Str → Option Json) (md5 : Str → Str)
    (adapter : Nat → Except PyExc Str) (mt : ModelType) (r : Recipe)
    (fs : CacheFS) : RunOut :=
  enrichRunGo loads md5 adapter mt r MAX_RETRIES fs 0 0 0

/-! ## C2 and C9: cache-hit behaviour of the orchestrator -/

theorem enrichHit_stats (r : Recipe) (fs : CacheFS) (cached : Json) :
    (enrichHit r fs cached).fs = fs ∧ (enrichHit r fs cached).providerCalls = 0 ∧
    (enrichHit r fs cached).cacheWrites = 0 := by
  unfold enrichHit
  split
  · split <;> exact ⟨rfl, rfl, rfl⟩
  · exact ⟨rfl, rfl, rfl⟩

theorem attempt_hit (loads : Str → Option Json) (md5 : Str → Str)
    (adapter : Except PyExc Str) (mt : ModelType) (fs : CacheFS) (r : Recipe) (p : Json)
    (hget : cacheGet md5 fs r mt = some p) (htr : pyTruthy p = true) :
    enrichAttempt loads md5 adapter mt fs r = enrichHit r fs p := by
  unfold enrichAttempt
  rw [hget]
  simp only [htr, if_pos]

theorem providerPhase_calls (loads : Str → Option Json) (md5 : Str → Str)
    (adapter : Except PyExc Str) (mt : ModelType) (fs : CacheFS) (r : Recipe) :
    (enrichProviderPhase loads md5 adapter mt fs r).providerCalls = 1 := by
  unfold enrichProviderPhase
  dsimp only []
  repeat' split
  all_goals rfl

theorem run_hit_calls (loads : Str → Option Json) (md5 : Str → Str)
    (adapter : Nat → Except PyExc Str) (mt : ModelType) (r : Recipe) (p : Json) :
    ∀ (n : Nat) (fs : CacheFS) (attempts calls writes : Nat),
      cacheGet md5 fs r mt = some p → pyTruthy p = true →
      (enrichRunGo loads md5 adapter mt r n fs attempts calls writes).providerCalls = calls := by
  intro n
  induction n with
  | zero =>
    intro fs attempts calls writes _ _
    rfl
  | succ m ih =>
    intro fs attempts calls writes hget htr
    have ha := attempt_hit loads md5 (adapter calls) mt fs r p hget htr
    have hst := enrichHit_stats r fs p
    rw [enrichRunGo, ha]
    cases ho : (enrichHit r fs p).outcome with
    | ok r' => simp [ho, hst.2.1]
    | error e =>
      by_cases hm : m = 0
      · subst hm
        simp [ho, hst.2.1]
      · simp only [ho, if_neg hm]
        rw [hst.1, hst.2.1, hst.2.2, Nat.add_zero, Nat.add_zero]
        exact ih fs (attempts + 1) calls writes hget htr

/-- C2 (amended): a non-empty cached payload short-circuits the provider:
no provider call happens in the whole decorated call; and when the cached
payload additionally validates against the schema, it is deserialized and
the enriched recipe returned. -/
theorem C2_cache_hit_short_circuit (loads : Str → Option Json) (md5 : Str → Str)
    (adapter : Nat → Except PyExc Str) (mt : ModelType) (r : Recipe) (fs : CacheFS) (p : Json)
    (hget : cacheGet md5 fs r mt = some p) (htr : pyTruthy p = true) :
    (enrich_single_recipe loads md5 adapter mt r fs).providerCalls = 0
    ∧ (∀ kvs e, p = Json.obj kvs → validateEnrichment kvs = Except.ok e →
        (enrich_single_recipe loads md5 adapter mt r fs).outcome =
          Except.ok { r with enrichment := some e }) := by
  constructor
  · exact run_hit_calls loads md5 adapter mt r p MAX_RETRIES fs 0 0 0 hget htr
  · intro kvs e hp hv
    subst hp
    have ha := attempt_hit loads md5 (adapter 0) mt fs r _ hget htr
    have hres : enrichAttempt loads md5 (adapter 0) mt fs r =
        ⟨Except.ok { r with enrichment := some e }, fs, 0, 0⟩ := by
      rw [ha]
      unfold enrichHit
      simp only [hv]
    rw [enrich_single_recipe]
    rw [show MAX_RETRIES = 2 + 1 from rfl]
    rw [enrichRunGo]
    rw [hres]

/-- A digest stub for the C2 counterexample. -/
def c2md5 : Str → Str := fun _ => lit "d"

/-- A cache directory whose entry for c1r1 stores the empty JSON object. -/
def c2fs : CacheFS := [(cacheFileName c2md5 c1r1 c1m, FileData.good (Json.obj []))]

def c2loads : Str → Option Json := fun _ => none

def c2adapter : Nat → Except PyExc Str := fun _ => Except.ok (lit "oops")

/-- C2 counterexample: get returns a stored payload (the empty object,
not absent), yet the provider adapter is invoked — on every attempt. -/
theorem C2_counterexample :
    cacheGet c2md5 c2fs c1r1 c1m = some (Json.obj []) ∧
    (enrich_single_recipe c2loads c2md5 c2adapter c1m c1r1 c2fs).providerCalls = 3 :=
  ⟨rfl, rfl⟩

/-- A valid sample payload for the C2 witness. -/
def c2payload : Payload :=
  [(lit "title", Json.str (lit "Dal")),
   (lit "generated_summary", Json.str (lit "Tasty.")),
   (lit "ingredients", Json.arr [Json.str (lit "x")]),
   (lit "instructions", Json.arr [Json.str (lit "y")]),
   (lit "healthiness_score", Json.str (lit "Healthy")),
   (lit "ease_of_cooking_score", Json.str (lit "Easy")),
   (lit "indian_ingredient_availability_score", Json.str (lit "Very High")),
   (lit "prep_time_minutes", Json.num 10),
   (lit "prep_time_breakdown", Json.obj []),
   (lit "total_cooking_time_minutes", Json.num 20),
   (lit "cooking_time_breakdown", Json.obj []),
   (lit "protein_level", Json.str (lit "High")),
   (lit "meal_type_suitability", Json.arr []),
   (lit "dietary_restrictions", Json.arr []),
   (lit "categories", Json.obj [])]

/-- A cache directory whose entry for c1r1 stores the valid payload. -/
def c2wfs : CacheFS := [(cacheFileName c2md5 c1r1 c1m, FileData.good (Json.obj c2payload))]

theorem C2_cache_hit_short_circuit_witness :
    (enrich_single_recipe c2loads c2md5 c2adapter c1m c1r1 c2wfs).providerCalls = 0
    ∧ (enrich_single_recipe c2loads c2md5 c2adapter c1m c1r1 c2wfs).outcome =
        Except.ok { c1r1 with enrichment := some (buildEnrichment c2payload) } :=
  ⟨(C2_cache_hit_short_circuit c2loads c2md5 c2adapter c1m c1r1 c2wfs
      (Json.obj c2payload) rfl rfl).1,
   (C2_cache_hit_short_circuit c2loads c2md5 c2adapter c1m c1r1 c2wfs
      (Json.obj c2payload) rfl rfl).2 c2payload (buildEnrichment c2payload) rfl rfl⟩

/-- C9: the truthiness test treats an empty cached object as a miss: the
attempt proceeds to call the provider adapter exactly once, even though
get returned a stored payload; a truthy cached payload short-circuits. -/
theorem C9_empty_payload_is_miss (loads : Str → Option Json) (md5 : Str → Str)
    (adapter : Except PyExc Str) (mt : ModelType) (fs : CacheFS) (r : Recipe) :
    (cacheGet md5 fs r mt = some (Json.obj []) →
      (enrichAttempt loads md5 adapter mt fs r).providerCalls = 1)
    ∧ (∀ p, cacheGet md5 fs r mt = some p → pyTruthy p = true →
        (enrichAttempt loads md5 adapter mt fs r).providerCalls = 0) := by
  constructor
  · intro hget
    unfold enrichAttempt
    rw [hget]
    simp only [pyTruthy, List.isEmpty_nil, Bool.not_true, Bool.false_eq_true, if_false]
    exact providerPhase_calls loads md5 adapter mt fs r
  · intro p hget htr
    rw [attempt_hit loads md5 adapter mt fs r p hget htr]
    exact (enrichHit_stats r fs p).2.1

theorem C9_empty_payload_is_miss_witness :
    (enrichAttempt c2loads c2md5 (c2adapter 0) c1m c2fs c1r1).providerCalls = 1
    ∧ (enrichAttempt c2loads c2md5 (c2adapter 0) c1m c2wfs c1r1).providerCalls = 0 :=
  ⟨(C9_empty_payload_is_miss c2loads c2md5 (c2adapter 0) c1m c2fs c1r1).1 rfl,
   (C9_empty_payload_is_miss c2loads c2md5 (c2adapter 0) c1m c2wfs c1r1).2
     (Json.obj c2payload) rfl rfl⟩

/-! ## C3: retry exhaustion -/

theorem attempt_unparsable (loads : Str → Option Json) (md5 : Str → Str) (mt : ModelType)
    (fs : CacheFS) (r : Recipe) (s : Str)
    (hmiss : cacheGet md5 fs r mt = none) (hl : loads s = none) :
    enrichAttempt loads md5 (Except.ok s) mt fs r =
      ⟨Except.error PyExc.jsonErr, fs, 1, 0⟩ := by
  unfold enrichAttempt
  rw [hmiss]
  unfold enrichProviderPhase
  cases hs : startsWithSentinel s <;> simp [hs, hl]

theorem run_unparsable (loads : Str → Option Json) (md5 : Str → Str)
    (adapter : Nat → Except PyExc Str) (mt : ModelType) (r : Recipe) :
    ∀ (n : Nat) (fs : CacheFS) (attempts calls writes : Nat),
      cacheGet md5 fs r mt = none →
      (∀ k, ∃ s, adapter k = Except.ok s ∧ loads s = none) →
      enrichRunGo loads md5 adapter mt r (n + 1) fs attempts calls writes =
        ⟨Except.error (PyExc.retryErr PyExc.jsonErr), fs, attempts + (n + 1),
          calls + (n + 1), writes⟩ := by
  intro n
  induction n with
  | zero =>
    intro fs attempts calls writes hmiss hbad
    obtain ⟨s, ha, hl⟩ := hbad calls
    rw [enrichRunGo, ha, attempt_unparsable loads md5 mt fs r s hmiss hl]
    simp
  | succ m ih =>
    intro fs attempts calls writes hmiss hbad
    obtain ⟨s, ha, hl⟩ := hbad calls
    rw [enrichRunGo, ha, attempt_unparsable loads md5 mt fs r s hmiss hl]
    simp only [Nat.succ_ne_zero, if_neg, reduceIte]
    rw [ih fs (attempts + 1) (calls + 1) (writes + 0) hmiss hbad]
    simp only [RunOut.mk.injEq, eq_self_iff_true, true_and, and_true]
    omega

/-- C3 (amended): with the recipe absent from the cache and a provider
whose every response fails to parse as JSON, the decorated call performs
exactly MAX_RETRIES attempts, performs no cache write and leaves the
cache directory unchanged, and the exception surfaced to the caller is
the tenacity RetryError wrapping the last attempt's JSON decode error
(not that last exception itself). -/
theorem C3_retry_exhaustion (loads : Str → Option Json) (md5 : Str → Str) (mt : ModelType)
    (r : Recipe) (adapter : Nat → Except PyExc Str) (fs : CacheFS)
    (hmiss : cacheGet md5 fs r mt = none)
    (hbad : ∀ k, ∃ s, adapter k = Except.ok s ∧ loads s = none) :
    (enrich_single_recipe loads md5 adapter mt r fs).attempts = MAX_RETRIES
    ∧ (enrich_single_recipe loads md5 adapter mt r fs).outcome
        = Except.error (PyExc.retryErr PyExc.jsonErr)
    ∧ (enrich_single_recipe loads md5 adapter mt r fs).cacheWrites = 0
    ∧ (enrich_single_recipe loads md5 adapter mt r fs).fs = fs
    ∧ (enrich_single_recipe loads md5 adapter mt r fs).providerCalls = MAX_RETRIES := by
  rw [enrich_single_recipe, show MAX_RETRIES = 2 + 1 from rfl,
    run_unparsable loads md5 adapter mt r 2 fs 0 0 0 hmiss hbad]
  exact ⟨rfl, rfl, rfl, rfl, rfl⟩

def c3loads : Str → Option Json := fun _ => none

def c3md5 : Str → Str := fun _ => lit "d"

def c3adapter : Nat → Except PyExc Str := fun _ => Except.ok (lit "oops")

/-- C3 counterexample: the exception surfaced after exhaustion is the
RetryError wrapper, not the last in-attempt exception itself. -/
theorem C3_counterexample :
    (enrich_single_recipe c3loads c3md5 c3adapter c1m c1r1 []).outcome
        = Except.error (PyExc.retryErr PyExc.jsonErr)
    ∧ (enrich_single_recipe c3loads c3md5 c3adapter c1m c1r1 []).outcome
        ≠ Except.error PyExc.jsonErr := by
  refine ⟨rfl, ?_⟩
  intro h
  rw [show (enrich_single_recipe c3loads c3md5 c3adapter c1m c1r1 []).outcome
      = Except.error (PyExc.retryErr PyExc.jsonErr) from rfl] at h
  injection h with h2
  exact absurd h2 (by decide)

theorem C3_retry_exhaustion_witness :
    (enrich_single_recipe c3loads c3md5 c3adapter c1m c1r1 []).attempts = MAX_RETRIES
    ∧ (enrich_single_recipe c3loads c3md5 c3adapter c1m c1r1 []).outcome
        = Except.error (PyExc.retryErr PyExc.jsonErr)
    ∧ (enrich_single_recipe c3loads c3md5 c3adapter c1m c1r1 []).cacheWrites = 0
    ∧ (enrich_single_recipe c3loads c3md5 c3adapter c1m c1r1 []).fs = []
    ∧ (enrich_single_recipe c3loads c3md5 c3adapter c1m c1r1 []).providerCalls = MAX_RETRIES :=
  C3_retry_exhaustion c3loads c3md5 c1m c1r1 c3adapter [] rfl
    (fun _ => ⟨lit "oops", rfl, rfl⟩)

/-! ## C4: required-field completion defaults -/

theorem dictGet_dictSet_self (d : Payload) (k : Str) (v : Json) :
    dictGet (dictSet d k v) k = some v := by
  induction d with
  | nil => simp [dictSet, dictGet]
  | cons hd tl ih =>
    obtain ⟨k', v'⟩ := hd
    by_cases h : k' = k <;> simp [dictSet, dictGet, h, ih]

theorem dictGet_dictSet_ne (d : Payload) (k f : Str) (v : Json) (h : k ≠ f) :
    dictGet (dictSet d k v) f = dictGet d f := by
  induction d with
  | nil => simp [dictSet, dictGet, h]
  | cons hd tl ih =>
    obtain ⟨k', v'⟩ := hd
    by_cases h' : k' = k
    · subst h'
      simp [dictSet, dictGet, h]
    · simp [dictSet, dictGet, h', ih]

theorem dictHas_dictSet_of (d : Payload) (k f : Str) (v : Json)
    (h : dictHas d f = true) : dictHas (dictSet d k v) f = true := by
  by_cases hk : k = f
  · subst hk
    simp [dictHas, dictGet_dictSet_self]
  · rw [dictHas, dictGet_dictSet_ne d k f v hk]
    exact h

theorem foldl_backfill_preserve (r : Recipe) (l : List Str) (f : Str) (h : f ∉ l) :
    ∀ d : Payload, dictGet (l.foldl (backfillStep r) d) f = dictGet d f := by
  induction l with
  | nil => intro d; rfl
  | cons g gs ih =>
    intro d
    have hne : g ≠ f := fun hgf => h (hgf ▸ List.mem_cons_self g gs)
    have hnot : f ∉ gs := fun hin => h (List.mem_cons_of_mem g hin)
    rw [List.foldl_cons, ih hnot]
    rw [backfillStep]
    cases defaultFor r g with
    | none => rfl
    | some v => exact dictGet_dictSet_ne d g f v hne

theorem foldl_backfill_sets (r : Recipe) (l : List Str) (f : Str) (v : Json)
    (hv : defaultFor r f = some v) :
    ∀ d : Payload, f ∈ l → l.Nodup →
      dictGet (l.foldl (backfillStep r) d) f = some v := by
  induction l with
  | nil => intro d hf _; cases hf
  | cons g gs ih =>
    intro d hf hnd
    rw [List.foldl_cons]
    by_cases hgf : f = g
    · subst hgf
      have hnot : f ∉ gs := (List.nodup_cons.mp hnd).1
      rw [foldl_backfill_preserve r gs f hnot, backfillStep, hv]
      exact dictGet_dictSet_self d f v
    · have hin : f ∈ gs := by
        cases List.mem_cons.mp hf with
        | inl h => exact absurd h hgf
        | inr h => exact h
      exact ih (backfillStep r d g) hin (List.nodup_cons.mp hnd).2

theorem requiredFields_nodup : requiredFields.Nodup := by decide

/-- A missing required field ends up holding its default. -/
theorem completeRequired_get (r : Recipe) (d : Payload) (f : Str) (v : Json)
    (hf : f ∈ requiredFields) (hv : defaultFor r f = some v)
    (hmiss : dictHas d f = false) :
    dictGet (completeRequired r d) f = some v := by
  rw [completeRequired]
  refine foldl_backfill_sets r _ f v hv d ?_ ?_
  · exact List.mem_filter.mpr ⟨hf, by simp [hmiss]⟩
  · exact List.Nodup.filter _ requiredFields_nodup

/-- The validator only accepts by building the record from the payload. -/
theorem validate_ok_eq (d : Payload) (e : EnrichmentRecord)
    (h : validateEnrichment d = Except.ok e) : e = buildEnrichment d := by
  rw [validateEnrichment] at h
  split at h
  · injection h with h'
    exact h'.symm
  · cases h

/-- C4: the back-fill substitutes Medium for a missing protein_level, 30
for missing time fields, Moderate for the three missing score fields; it
is total and leaves every required field present; and a record validated
from the completed payload carries the substituted protein level. -/
theorem C4_required_field_defaults (r : Recipe) (d : Payload) :
    (dictHas d (lit "protein_level") = false →
      dictGet (completeRequired r d) (lit "protein_level") = some (Json.str (lit "Medium")))
    ∧ (dictHas d (lit "prep_time_minutes") = false →
      dictGet (completeRequired r d) (lit "prep_time_minutes") = some (Json.num 30))
    ∧ (dictHas d (lit "total_cooking_time_minutes") = false →
      dictGet (completeRequired r d) (lit "total_cooking_time_minutes") = some (Json.num 30))
    ∧ (dictHas d (lit "healthiness_score") = false →
      dictGet (completeRequired r d) (lit "healthiness_score")
        = some (Json.str (lit "Moderate")))
    ∧ (dictHas d (lit "ease_of_cooking_score") = false →
      dictGet (completeRequired r d) (lit "ease_of_cooking_score")
        = some (Json.str (lit "Moderate")))
    ∧ (dictHas d (lit "indian_ingredient_availability_score") = false →
      dictGet (completeRequired r d) (lit "indian_ingredient_availability_score")
        = some (Json.str (lit "Moderate")))
    ∧ (∀ f ∈ requiredFields, dictHas (completeRequired r d) f = true)
    ∧ (∀ e, validateEnrichment (completeRequired r d) = Except.ok e →
        dictHas d (lit "protein_level") = false → e.protein_level = lit "Medium") := by
  refine ⟨?_, ?_, ?_, ?_, ?_, ?_, ?_, ?_⟩
  · exact fun h => completeRequired_get r d _ _ (by decide) rfl h
  · exact fun h => completeRequired_get r d _ _ (by decide) rfl h
  · exact fun h => completeRequired_get r d _ _ (by decide) rfl h
  · exact fun h => completeRequired_get r d _ _ (by decide) rfl h
  · exact fun h => completeRequired_get r d _ _ (by decide) rfl h
  · exact fun h => completeRequired_get r d _ _ (by decide) rfl h
  · intro f hf
    by_cases hd : dictHas d f = true
    · rw [completeRequired]
      generalize requiredFields.filter (fun g => !dictHas d g) = l
      induction l generalizing d with
      | nil => exact hd
      | cons g gs ih =>
        rw [List.foldl_cons]
        refine ih (backfillStep r d g) ?_
        rw [backfillStep]
        cases defaultFor r g with
        | none => exact hd
        | some v => exact dictHas_dictSet_of d g f v hd
    · have hmiss : dictHas d f = false := by
        cases hb : dictHas d f
        · rfl
        · exact absurd hb hd
      have hsome : (defaultFor r f).isSome := by
        fin_cases hf <;> rfl
      obtain ⟨v, hv⟩ := Option.isSome_iff_exists.mp hsome
      rw [dictHas, completeRequired_get r d f v hf hv hmiss]
      rfl
  · intro e he hmiss
    have hb := validate_ok_eq _ _ he
    subst hb
    have hget := completeRequired_get r d (lit "protein_level") (Json.str (lit "Medium"))
      (by decide) rfl hmiss
    show exGet [] (reqStrPattern (completeRequired r d) (lit "protein_level") proteinVocab)
        = lit "Medium"
    simp only [reqStrPattern, hget]
    rw [if_pos (show lit "Medium" ∈ proteinVocab from by decide)]
    rfl

theorem C4_required_field_defaults_witness :
    dictGet (completeRequired c1r1 []) (lit "protein_level") = some (Json.str (lit "Medium"))
    ∧ dictGet (completeRequired c1r1 []) (lit "prep_time_minutes") = some (Json.num 30)
    ∧ dictGet (completeRequired c1r1 []) (lit "total_cooking_time_minutes")
        = some (Json.num 30)
    ∧ dictGet (completeRequired c1r1 []) (lit "healthiness_score")
        = some (Json.str (lit "Moderate"))
    ∧ (buildEnrichment (completeRequired c1r1 [])).protein_level = lit "Medium" :=
  ⟨(C4_required_field_defaults c1r1 []).1 rfl,
   (C4_required_field_defaults c1r1 []).2.1 rfl,
   (C4_required_field_defaults c1r1 []).2.2.1 rfl,
   (C4_required_field_defaults c1r1 []).2.2.2.1 rfl,
   (C4_required_field_defaults c1r1 []).2.2.2.2.2.2.2
     (buildEnrichment (completeRequired c1r1 [])) rfl rfl⟩

/-! ## C8: enumeration vocabulary invariant -/

theorem reqStrPattern_ok_mem (d : Payload) (k : Str) (vocab : List Str) (s : Str)
    (h : reqStrPattern d k vocab = Except.ok s) : s ∈ vocab := by
  rw [reqStrPattern] at h
  split at h
  · rename_i s' heq
    split at h
    · rename_i hmem
      injection h with h'
      subst h'
      exact hmem
    · cases h
  · cases h

theorem reqStrPattern_error_of (d : Payload) (k : Str) (vocab : List Str) (s : Str)
    (hs : dictGet d k = some (Json.str s)) (hnot : s ∉ vocab) :
    reqStrPattern d k vocab = Except.error () := by
  simp only [reqStrPattern, hs]
  rw [if_neg hnot]

theorem exOk_ok {α : Type} (x : Except Unit α) (h : exOk x = true) :
    ∃ a, x = Except.ok a := by
  cases x with
  | ok a => exact ⟨a, rfl⟩
  | error e => simp [exOk] at h

/-- C8: every successfully validated record's three 5-point scores and
protein level lie in their fixed vocabularies, and a payload carrying a
string outside the vocabulary for any of those fields is rejected. -/
theorem C8_enum_vocab (d : Payload) :
    (∀ e, validateEnrichment d = Except.ok e →
      e.healthiness_score ∈ healthinessVocab ∧ e.ease_of_cooking_score ∈ easeVocab ∧
      e.indian_ingredient_availability_score ∈ availabilityVocab ∧
      e.protein_level ∈ proteinVocab)
    ∧ (∀ s, dictGet d (lit "healthiness_score") = some (Json.str s) →
        s ∉ healthinessVocab → validateEnrichment d = Except.error ())
    ∧ (∀ s, dictGet d (lit "ease_of_cooking_score") = some (Json.str s) →
        s ∉ easeVocab → validateEnrichment d = Except.error ())
    ∧ (∀ s, dictGet d (lit "indian_ingredient_availability_score") = some (Json.str s) →
        s ∉ availabilityVocab → validateEnrichment d = Except.error ())
    ∧ (∀ s, dictGet d (lit "protein_level") = some (Json.str s) →
        s ∉ proteinVocab → validateEnrichment d = Except.error ()) := by
  refine ⟨?_, ?_, ?_, ?_, ?_⟩
  · intro e he
    have hok : enrichmentOk d = true := by
      rw [validateEnrichment] at he
      split at he
      · assumption
      · cases he
    have hb := validate_ok_eq d e he
    subst hb
    rw [enrichmentOk] at hok
    simp only [Bool.and_eq_true] at hok
    obtain ⟨⟨⟨⟨⟨⟨⟨⟨⟨⟨⟨⟨⟨⟨⟨⟨⟨⟨⟨⟨⟨⟨⟨hx1, hx2⟩, hx3⟩, hx4⟩, hx5⟩, hx6⟩, hx7⟩, hx8⟩, hx9⟩,
      hx10⟩, hx11⟩, hx12⟩, hx13⟩, hx14⟩, hx15⟩, hx16⟩, hx17⟩, hx18⟩, hx19⟩, hx20⟩,
      hx21⟩, hx22⟩, hx23⟩, hx24⟩ := hok
    obtain ⟨s5, hs5⟩ := exOk_ok _ hx5
    obtain ⟨s6, hs6⟩ := exOk_ok _ hx6
    obtain ⟨s7, hs7⟩ := exOk_ok _ hx7
    obtain ⟨s15, hs15⟩ := exOk_ok _ hx15
    refine ⟨?_, ?_, ?_, ?_⟩
    · show exGet [] (reqStrPattern d (lit "healthiness_score") healthinessVocab)
        ∈ healthinessVocab
      rw [hs5]
      exact reqStrPattern_ok_mem d (lit "healthiness_score") healthinessVocab s5 hs5
    · show exGet [] (reqStrPattern d (lit "ease_of_cooking_score") easeVocab) ∈ easeVocab
      rw [hs6]
      exact reqStrPattern_ok_mem d (lit "ease_of_cooking_score") easeVocab s6 hs6
    · show exGet [] (reqStrPattern d (lit "indian_ingredient_availability_score")
        availabilityVocab) ∈ availabilityVocab
      rw [hs7]
      exact reqStrPattern_ok_mem d (lit "indian_ingredient_availability_score")
        availabilityVocab s7 hs7
    · show exGet [] (reqStrPattern d (lit "protein_level") proteinVocab) ∈ proteinVocab
      rw [hs15]
      exact reqStrPattern_ok_mem d (lit "protein_level") proteinVocab s15 hs15
  · intro s hs hnot
    have hp := reqStrPattern_error_of d (lit "healthiness_score") healthinessVocab s hs hnot
    have hfalse : enrichmentOk d = false := by
      simp [enrichmentOk, hp, exOk]
    simp [validateEnrichment, hfalse]
  · intro s hs hnot
    have hp := reqStrPattern_error_of d (lit "ease_of_cooking_score") easeVocab s hs hnot
    have hfalse : enrichmentOk d = false := by
      simp [enrichmentOk, hp, exOk]
    simp [validateEnrichment, hfalse]
  · intro s hs hnot
    have hp := reqStrPattern_error_of d (lit "indian_ingredient_availability_score")
      availabilityVocab s hs hnot
    have hfalse : enrichmentOk d = false := by
      simp [enrichmentOk, hp, exOk]
    simp [validateEnrichment, hfalse]
  · intro s hs hnot
    have hp := reqStrPattern_error_of d (lit "protein_level") proteinVocab s hs hnot
    have hfalse : enrichmentOk d = false := by
      simp [enrichmentOk, hp, exOk]
    simp [validateEnrichment, hfalse]

/-- A payload whose healthiness score is outside the vocabulary. -/
def c8bad : Payload := dictSet c2payload (lit "healthiness_score") (Json.str (lit "Amazing"))

theorem C8_enum_vocab_witness :
    ((buildEnrichment c2payload).healthiness_score ∈ healthinessVocab ∧
     (buildEnrichment c2payload).ease_of_cooking_score ∈ easeVocab ∧
     (buildEnrichment c2payload).indian_ingredient_availability_score ∈ availabilityVocab ∧
     (buildEnrichment c2payload).protein_level ∈ proteinVocab)
    ∧ validateEnrichment c8bad = Except.error () :=
  ⟨(C8_enum_vocab c2payload).1 (buildEnrichment c2payload) rfl,
   (C8_enum_vocab c8bad).2.1 (lit "Amazing") rfl (by decide)⟩

/-! ## C5: model-returned ingredient/instruction lists are used as-is -/

theorem dictGet_fixUnicodePass (d : Payload) (k : Str) :
    dictGet (fixUnicodePass d) k = (dictGet d k).map fixValue := by
  induction d with
  | nil => rfl
  | cons hd tl ih =>
    obtain ⟨k', v⟩ := hd
    by_cases h : k' = k
    · simp [fixUnicodePass, dictGet, h]
    · simp only [fixUnicodePass, dictGet, List.map_cons, if_neg h]
      simpa [fixUnicodePass] using ih

theorem fixValue_strArr (xs : List Str) :
    fixValue (Json.arr (xs.map Json.str)) = Json.arr ((xs.map fixUnicode).map Json.str) := by
  rw [fixValue, if_pos]
  · simp only [List.map_map]
    congr 1
  · simp [List.all_eq_true, isJsonStr]

theorem jsonStrElems_map_str (l : List Str) : jsonStrElems (l.map Json.str) = some l := by
  induction l with
  | nil => rfl
  | cons x xs ih => simp [jsonStrElems, ih]

theorem imageBackfill_get_ne (r : Recipe) (d : Payload) (f : Str)
    (h : lit "image_url" ≠ f) : dictGet (imageBackfill r d) f = dictGet d f := by
  rw [imageBackfill]
  cases imageUrlChoice r with
  | none => rfl
  | some s => exact dictGet_dictSet_ne d _ f _ h

theorem videoBackfill_get_ne (r : Recipe) (d : Payload) (f : Str)
    (h : lit "video_url" ≠ f) : dictGet (videoBackfill r d) f = dictGet d f := by
  rw [videoBackfill]
  cases hm : r.movies with
  | none => rfl
  | some l =>
    cases l with
    | nil => rfl
    | cons m0 ms => exact dictGet_dictSet_ne d _ f _ h

theorem additionalImagesBackfill_get_ne (r : Recipe) (d : Payload) (f : Str)
    (h : lit "additional_images" ≠ f) :
    dictGet (additionalImagesBackfill r d) f = dictGet d f := by
  rw [additionalImagesBackfill]
  cases r.images with
  | none => rfl
  | some l =>
    cases l with
    | nil => rfl
    | cons i0 irest =>
      show dictGet (if (imageEqFirst d i0 && !irest.isEmpty) = true then
          dictSet d (lit "additional_images") (Json.arr (List.map Json.str irest))
        else dictSet d (lit "additional_images") (Json.arr (List.map Json.str (i0 :: irest)))) f
        = dictGet d f
      by_cases hc : (imageEqFirst d i0 && !irest.isEmpty) = true
      · rw [if_pos hc]
        exact dictGet_dictSet_ne d _ f _ h
      · rw [if_neg hc]
        exact dictGet_dictSet_ne d _ f _ h

theorem originalCategoriesStep_get_ne (r : Recipe) (d : Payload) (f : Str)
    (h : lit "original_categories" ≠ f) :
    dictGet (originalCategoriesStep r d) f = dictGet d f := by
  rw [originalCategoriesStep]
  cases r.categories with
  | none => exact dictGet_dictSet_ne d _ f _ h
  | some l =>
    cases l with
    | nil => exact dictGet_dictSet_ne d _ f _ h
    | cons c0 cs => exact dictGet_dictSet_ne d _ f _ h

theorem mealPrepDefault_get_ne (d : Payload) (f : Str)
    (h : lit "meal_prep_guidance" ≠ f) :
    dictGet (mealPrepDefault d) f = dictGet d f := by
  rw [mealPrepDefault]
  by_cases hh : dictHas d (lit "meal_prep_guidance") = true
  · rw [if_pos hh]
  · rw [if_neg hh]
    exact dictGet_dictSet_ne d _ f _ h

theorem completeRequired_get_present (r : Recipe) (d : Payload) (f : Str)
    (h : dictHas d f = true) :
    dictGet (completeRequired r d) f = dictGet d f := by
  rw [completeRequired]
  apply foldl_backfill_preserve
  intro hin
  have h2 := (List.mem_filter.mp hin).2
  simp [h] at h2

/-- The value of a payload field not touched by the URL/category/meal-prep
back-fill steps, after the whole repair pipeline: it is the unicode-fixed
incoming value. -/
theorem pipeline_get_field (r : Recipe) (kvs : Payload) (f : Str) (v : Json)
    (h1 : lit "recipe_url" ≠ f) (h2 : lit "image_url" ≠ f) (h3 : lit "video_url" ≠ f)
    (h4 : lit "additional_images" ≠ f) (h5 : lit "original_categories" ≠ f)
    (h6 : lit "meal_prep_guidance" ≠ f)
    (hget : dictGet kvs f = some v) :
    dictGet (completeRequired r (mealPrepDefault (originalCategoriesStep r
      (additionalImagesBackfill r (videoBackfill r (imageBackfill r
        (dictSet (fixUnicodePass kvs) (lit "recipe_url") (optStrJson r.url)))))))) f
      = some (fixValue v) := by
  have g1 : dictGet (fixUnicodePass kvs) f = some (fixValue v) := by
    rw [dictGet_fixUnicodePass, hget]
    rfl
  have g2 := dictGet_dictSet_ne (fixUnicodePass kvs) (lit "recipe_url") f
    (optStrJson r.url) h1
  rw [completeRequired_get_present, mealPrepDefault_get_ne _ _ h6,
    originalCategoriesStep_get_ne _ _ _ h5, additionalImagesBackfill_get_ne _ _ _ h4,
    videoBackfill_get_ne _ _ _ h3, imageBackfill_get_ne _ _ _ h2, g2, g1]
  rw [dictHas, mealPrepDefault_get_ne _ _ h6, originalCategoriesStep_get_ne _ _ _ h5,
    additionalImagesBackfill_get_ne _ _ _ h4, videoBackfill_get_ne _ _ _ h3,
    imageBackfill_get_ne _ _ _ h2, g2, g1]
  rfl

/-- Extract the enrichment ingredient list of a recipe (empty if absent). -/
def recIngredients (r : Recipe) : List Str :=
  match r.enrichment with
  | some e => e.ingredients
  | none => []

/-- Extract the enrichment instruction list of a recipe (empty if absent). -/
def recInstructions (r : Recipe) : List Str :=
  match r.enrichment with
  | some e => e.instructions
  | none => []

/-- C5 (amended): on a successful fresh enrichment whose parsed payload
carries ingredient and instruction string lists, the resulting record
carries the model payload's lists (after the fixed Unicode de-escaping
table), not the source Recipe's own lists. -/
theorem C5_model_lists_used (loads : Str → Option Json) (md5 : Str → Str) (mt : ModelType)
    (r : Recipe) (fs : CacheFS) (s : Str) (kvs : Payload) (xs ys : List Str)
    (hmiss : cacheGet md5 fs r mt = none)
    (hsent : startsWithSentinel s = false)
    (hload : loads s = some (Json.obj kvs))
    (hing : dictGet kvs (lit "ingredients") = some (Json.arr (xs.map Json.str)))
    (hins : dictGet kvs (lit "instructions") = some (Json.arr (ys.map Json.str))) :
    ∀ r', (enrichAttempt loads md5 (Except.ok s) mt fs r).outcome = Except.ok r' →
      recIngredients r' = xs.map fixUnicode ∧ recInstructions r' = ys.map fixUnicode := by
  intro r' hout
  unfold enrichAttempt at hout
  rw [hmiss] at hout
  dsimp only [] at hout
  unfold enrichProviderPhase at hout
  dsimp only [] at hout
  rw [if_neg (by simp [hsent])] at hout
  rw [hload] at hout
  dsimp only [] at hout
  have hd8i := pipeline_get_field r kvs (lit "ingredients") (Json.arr (xs.map Json.str))
    (by decide) (by decide) (by decide) (by decide) (by decide) (by decide) hing
  have hd8n := pipeline_get_field r kvs (lit "instructions") (Json.arr (ys.map Json.str))
    (by decide) (by decide) (by decide) (by decide) (by decide) (by decide) hins
  rw [fixValue_strArr] at hd8i hd8n
  cases hv : validateEnrichment (completeRequired r (mealPrepDefault
      (originalCategoriesStep r (additionalImagesBackfill r (videoBackfill r
        (imageBackfill r (dictSet (fixUnicodePass kvs) (lit "recipe_url")
          (optStrJson r.url)))))))) with
  | error e =>
    rw [hv] at hout
    cases hout
  | ok e =>
    rw [hv] at hout
    injection hout with hr
    subst hr
    have hb := validate_ok_eq _ _ hv
    subst hb
    constructor
    · show exGet [] (reqStrList _ (lit "ingredients")) = xs.map fixUnicode
      rw [reqStrList, hd8i]
      dsimp only []
      rw [jsonStrElems_map_str]
      rfl
    · show exGet [] (reqStrList _ (lit "instructions")) = ys.map fixUnicode
      rw [reqStrList, hd8n]
      dsimp only []
      rw [jsonStrElems_map_str]
      rfl

/-- The valid sample payload with model-rewritten ingredient and
instruction lists (differing from the source recipe's). -/
def c5payload : Payload :=
  dictSet (dictSet c2payload (lit "ingredients") (Json.arr [Json.str (lit "a")]))
    (lit "instructions") (Json.arr [Json.str (lit "b")])

def c5loads : Str → Option Json := fun _ => some (Json.obj c5payload)

/-- One fresh-call attempt against the stub provider. -/
def c5attempt : AttemptOut :=
  enrichAttempt c5loads c3md5 (Except.ok (lit "resp")) c1m [] c1r1

def c5result : Recipe :=
  match c5attempt.outcome with
  | Except.ok r' => r'
  | Except.error _ => c1r1

/-- C5 counterexample: a successful fresh enrichment whose model payload
lists differ from the source Recipe's carries the model's lists, not the
source Recipe's. -/
theorem C5_counterexample :
    recIngredients c5result = [lit "a"]
    ∧ c1r1.ingredients = [lit "x"]
    ∧ recIngredients c5result ≠ c1r1.ingredients
    ∧ c5attempt.outcome = Except.ok c5result :=
  ⟨rfl, rfl, by decide, rfl⟩

theorem C5_model_lists_used_witness :
    recIngredients c5result = [lit "a"].map fixUnicode
    ∧ recInstructions c5result = [lit "b"].map fixUnicode :=
  C5_model_lists_used c5loads c3md5 c1m c1r1 [] (lit "resp") c5payload
    [lit "a"] [lit "b"] rfl rfl rfl rfl rfl c5result rfl

/-! ## C10: Recipe construction with absent text
(core/models.py, _extract_section and extract_ingredients_and_instructions) -/

/-- Python str.find: index of the first occurrence of pat, from offset i. -/
def findSubAux (pat : Str) : Str → Nat → Option Nat
  | [], i => if pat.isEmpty then some i else none
  | c :: rest, i =>
    if pat.isPrefixOf (c :: rest) then some i else findSubAux pat rest (i + 1)

def findSub (pat s : Str) : Option Nat := findSubAux pat s 0

/-- Python "pat in s" for strings. -/
def containsSub (pat s : Str) : Bool := (findSub pat s).isSome

/-- The character class skipped after the section name: whitespace, colon
or dash. -/
def isSpaceOrSep (c : Char) : Bool := c.isWhitespace || c = ':' || c = '-'

/-- split("\n"). -/
def splitLines : Str → List Str
  | [] => [[]]
  | c :: rest =>
    if c = '\n' then [] :: splitLines rest
    else
      match splitLines rest with
      | s :: ss => (c :: s) :: ss
      | [] => [[c]]

/-- Python str.strip(). -/
def pyStrip (s : Str) : Str :=
  ((s.dropWhile Char.isWhitespace).reverse.dropWhile Char.isWhitespace).reverse

/-- The bullet/number prefixes stripped from lines. -/
def bulletPrefixes : List Str :=
  [lit "•", lit "-", lit "1.", lit "2.", lit "3.", lit "4.", lit "5.",
   lit "6.", lit "7.", lit "8.", lit "9.", lit "0."]

def startsWithAny (ps : List Str) (s : Str) : Bool :=
  ps.any (fun p => p.isPrefixOf s)

/-- line.split(".", 1)[-1]: everything after the first dot. -/
def afterFirstDot : Str → Str
  | [] => []
  | c :: rest => if c = '.' then rest else afterFirstDot rest

/-- The per-line cleanup loop of _extract_section. -/
def processLines : List Str → List Str
  | [] => []
  | line :: rest =>
    let l1 := pyStrip line
    if l1.isEmpty then processLines rest
    else
      let l2 :=
        if startsWithAny bulletPrefixes l1 then
          (if l1.contains '.' then afterFirstDot l1 else l1.drop 1)
        else l1
      let l3 := pyStrip l2
      if l3.isEmpty then processLines rest else l3 :: processLines rest

/-- The section names that terminate a section. -/
def nextSections : List Str :=
  [lit "How to make", lit "Suggestion", lit "For", lit "Time", lit "Video",
   lit "Tags", lit "Categories"]

/-- The body of _extract_section on an actual string.  The suffix after
the skipped separators plays the role of text[content_start:]; indices of
the next-section search are relative to it, matching the source's
absolute-index arithmetic. -/
def extract_section_body (text : Str) (section_name : Str) : List Str :=
  match findSub section_name text with
  | none => []
  | some start_idx =>
    let rem := (List.drop (start_idx + section_name.length) text).dropWhile isSpaceOrSep
    let ends := nextSections.filterMap (fun sec => findSub sec rem)
    let end_idx :=
      match ends with
      | [] => rem.length
      | e :: es => es.foldl min e
    processLines (splitLines (pyStrip (List.take end_idx rem)))

/-- _extract_section with its try/except: with text = None the attribute
access text.find raises, the handler returns []. -/
def extract_section (t : Option Str) (name : Str) : List Str :=
  match t with
  | none => []
  | some s => extract_section_body s name

/-- The model_validator extract_ingredients_and_instructions, as pydantic
runs it after construction; "Instructions" in self.text on a None text is
outside any handler and raises TypeError. -/
def recipeValidate (r : Recipe) : Except PyExc Recipe :=
  let ings :=
    if r.ingredients.isEmpty then extract_section r.text (lit "Ingredients")
    else r.ingredients
  if r.instructions.isEmpty then
    let itext := extract_section r.text (lit "How to make")
    if itext.isEmpty then
      match r.text with
      | none => Except.error PyExc.typeErr
      | some t =>
        if containsSub (lit "Instructions") t then
          Except.ok { r with ingredients := ings,
                             instructions := extract_section r.text (lit "Instructions") }
        else Except.ok { r with ingredients := ings, instructions := itext }
    else Except.ok { r with ingredients := ings, instructions := itext }
  else Except.ok { r with ingredients := ings }

/-- C10: constructing a Recipe with text absent and an empty instructions
list raises (TypeError from the membership test on None); with text
absent, empty ingredients but non-empty explicit instructions,
construction succeeds and the derived ingredients are the empty list. -/
theorem C10_construction_none_text (r : Recipe) (ht : r.text = none) :
    (r.instructions = [] → recipeValidate r = Except.error PyExc.typeErr)
    ∧ (r.ingredients = [] → r.instructions ≠ [] →
        recipeValidate r = Except.ok { r with ingredients := [] }) := by
  constructor
  · intro hi
    rw [recipeValidate, ht]
    rw [hi]
    rfl
  · intro hing hni
    rw [recipeValidate, ht]
    have h1 : r.instructions.isEmpty = false := by
      cases hl : r.instructions with
      | nil => exact absurd hl hni
      | cons a as => rfl
    rw [if_neg (by simp [h1])]
    rw [hing]
    rfl

/-- A recipe with text absent and empty instructions. -/
def c10bad : Recipe := { title := lit "T" }

/-- A recipe with text absent, empty ingredients, explicit instructions. -/
def c10ok : Recipe := { title := lit "T", instructions := [lit "step"] }

theorem C10_construction_none_text_witness :
    recipeValidate c10bad = Except.error PyExc.typeErr
    ∧ recipeValidate c10ok = Except.ok { c10ok with ingredients := [] } :=
  ⟨(C10_construction_none_text c10bad rfl).1 rfl,
   (C10_construction_none_text c10ok rfl).2 rfl (by decide)⟩
